import Mathlib

/-!
Verification development for the Telegram/WhatsApp invite-link collection
pipeline (collector.py, link_utils.py, database.py, file_extractors.py).

Strings of the Python source are modelled as lists of Unicode code points
(`Str := List Nat`).  Character-class predicates (`isdigit`, `isalnum`,
whitespace) are modelled on the ASCII range, which covers every pattern the
source matches against.  The specific regular expressions of link_utils.py
are embedded as direct scanning functions whose semantics (anchoring,
greediness, backtracking of the one lookahead) are derived from the Python
`re` behaviour and documented at each definition.
-/

/-- Code-point string, the model of a Python `str`. -/
abbrev Str := List Nat

/-- Code points of a Lean string literal, used to write concrete inputs. -/
def str (s : String) : Str := s.data.map Char.toNat

/-- Python `str.lower` on one ASCII code point. -/
def lowerC (c : Nat) : Nat := if 65 ≤ c ∧ c ≤ 90 then c + 32 else c

/-- Python `str.lower`. -/
def lowerS (s : Str) : Str := s.map lowerC

/-- Python `\s` / `str.strip` whitespace (ASCII). -/
def isSpaceC (c : Nat) : Bool :=
  c == 32 || c == 9 || c == 10 || c == 13 || c == 12 || c == 11

/-- ASCII decimal digit, the model of Python `str.isdigit` per character. -/
def isDigitC (c : Nat) : Bool := decide (48 ≤ c ∧ c ≤ 57)

/-- ASCII letter. -/
def isAlphaC (c : Nat) : Bool := decide ((65 ≤ c ∧ c ≤ 90) ∨ (97 ≤ c ∧ c ≤ 122))

/-- ASCII alphanumeric, the model of Python `str.isalnum` per character. -/
def isAlnumC (c : Nat) : Bool := isAlphaC c || isDigitC c

/-- Character class `[A-Za-z0-9_-]` of the telegram-link regexes. -/
def isWordC (c : Nat) : Bool := isAlnumC c || c == 95 || c == 45

/-- Python `str.strip`: drop whitespace from both ends. -/
def stripS (s : Str) : Str :=
  ((s.dropWhile isSpaceC).reverse.dropWhile isSpaceC).reverse

/-- `prefOf p s` holds when `p` is a leading segment of `s`. -/
def prefOf : Str → Str → Bool
  | [], _ => true
  | _ :: _, [] => false
  | a :: as, b :: bs => a == b && prefOf as bs

/-- Python substring test `p in s`. -/
def containsSub (p : Str) : Str → Bool
  | [] => p.isEmpty
  | c :: rest => prefOf p (c :: rest) || containsSub p rest

/-- Fuel-driven worker for `splitOnS`; one unit of fuel per step, and every
step consumes at least one character of the input, so `s.length` fuel is
always enough when the separator is nonempty. -/
def splitOnGo (sep : Str) : Nat → Str → List Str
  | 0, s => [s]
  | _ + 1, [] => [[]]
  | f + 1, c :: cs =>
    if prefOf sep (c :: cs) then
      [] :: splitOnGo sep f ((c :: cs).drop sep.length)
    else
      match splitOnGo sep f cs with
      | [] => [[c]]
      | q :: qs => (c :: q) :: qs

/-- Python `s.split(sep)` for a nonempty separator: non-overlapping,
left-to-right.  (Python raises on an empty separator; the source never
passes one, and the model returns `[s]` in that case.) -/
def splitOnS (sep s : Str) : List Str :=
  if sep.isEmpty then [s] else splitOnGo sep s.length s

/-- Keep the first occurrence of each element; the model of collecting into a
Python `set` and listing it (the set's iteration order is arbitrary in
Python; the model fixes first-occurrence order, and no pipeline decision
depends on the order). -/
def dedupGo (seen : List Str) : List Str → List Str
  | [] => []
  | x :: xs => if seen.contains x then dedupGo seen xs else x :: dedupGo (x :: seen) xs

/-- Deduplicate keeping first occurrences. -/
def dedupS (l : List Str) : List Str := dedupGo [] l

/-- Character allowed inside a URL by `URL_REGEX`'s class `[^\s<>"]`. -/
def urlCharC (c : Nat) : Bool := !(isSpaceC c || c == 60 || c == 62 || c == 34)

/-- Length of the scheme `https?://` matched case-insensitively at the head
of `s` (the `s?` of the regex cannot backtrack usefully, so the match is
exactly one of the two literal prefixes). -/
def httpPref (s : Str) : Option Nat :=
  if prefOf (str (r"https://")) (lowerS s) then some 8
  else if prefOf (str (r"http://")) (lowerS s) then some 7
  else none

/-- Fuel-driven scanner for `URL_REGEX.findall`: at each position try to
match `https?://[^\s<>"]+` (greedy, at least one character after the
scheme); on success emit the match and continue after it, otherwise advance
one character. -/
def urlFindGo : Nat → Str → List Str
  | 0, _ => []
  | _ + 1, [] => []
  | f + 1, c :: cs =>
    match httpPref (c :: cs) with
    | some k =>
      let rest := (c :: cs).drop k
      let run := rest.takeWhile urlCharC
      if run.isEmpty then urlFindGo f cs
      else ((c :: cs).take (k + run.length)) :: urlFindGo f (rest.drop run.length)
    | none => urlFindGo f cs

/-- `URL_REGEX.findall(text)` of link_utils.py. -/
def urlFindall (s : Str) : List Str := urlFindGo s.length s

/-- First character exists and lies in `[A-Za-z0-9_-]`. -/
def firstIsWord : Str → Bool
  | [] => false
  | c :: _ => isWordC c

/-- First character exists and is ASCII alphanumeric. -/
def firstIsAlnum : Str → Bool
  | [] => false
  | c :: _ => isAlnumC c

/-- First character exists and is an ASCII digit. -/
def firstIsDigit : Str → Bool
  | [] => false
  | c :: _ => isDigitC c

/-- `TG_PLUS_INVITE_REGEX.match(url)`: the anchored, case-insensitive match
of `https?://t\.me/\+[A-Za-z0-9_-]+` succeeds iff the lowered URL starts
with the scheme, `t.me/+`, and at least one word character. -/
def tgPlusMatch (url : Str) : Bool :=
  let l := lowerS url
  (prefOf (str (r"https://t.me/+")) l && firstIsWord (l.drop 14)) ||
  (prefOf (str (r"http://t.me/+")) l && firstIsWord (l.drop 13))

/-- Tail of the match of `[A-Za-z0-9_-]+(?!/)` after the `https?://t\.me/`
prefix.  The greedy run backtracks against the negative lookahead: with a
run of length at least 2 some split always satisfies `(?!/)` (the character
after the first run character is a word character, not `/`); with a run of
length 1 the match succeeds iff the next character is absent or not `/`;
with no run character the match fails. -/
def tgNoPlusTail (rest : Str) : Bool :=
  let run := rest.takeWhile isWordC
  if 2 ≤ run.length then true
  else if run.length == 1 then
    match rest.drop 1 with
    | [] => true
    | c :: _ => c != 47
  else false

/-- `TG_WITHOUT_PLUS_REGEX.match(url)`: anchored case-insensitive match of
`https?://t\.me/[A-Za-z0-9_-]+(?!/)`. -/
def tgWithoutPlusMatch (url : Str) : Bool :=
  let l := lowerS url
  (prefOf (str (r"https://t.me/")) l && tgNoPlusTail (l.drop 13)) ||
  (prefOf (str (r"http://t.me/")) l && tgNoPlusTail (l.drop 12))

/-- `WA_GROUP_REGEX.match(url)`: anchored case-insensitive match of
`https?://chat\.whatsapp\.com/[A-Za-z0-9]+`. -/
def waGroupMatch (url : Str) : Bool :=
  let l := lowerS url
  (prefOf (str (r"https://chat.whatsapp.com/")) l && firstIsAlnum (l.drop 26)) ||
  (prefOf (str (r"http://chat.whatsapp.com/")) l && firstIsAlnum (l.drop 25))

/-- `WA_PHONE_REGEX.match(url)`: anchored case-insensitive match of
`https?://wa\.me/\d+`. -/
def waPhoneMatch (url : Str) : Bool :=
  let l := lowerS url
  (prefOf (str (r"https://wa.me/")) l && firstIsDigit (l.drop 14)) ||
  (prefOf (str (r"http://wa.me/")) l && firstIsDigit (l.drop 13))

/-- Search of the four `TG_REJECTED_PATTERNS` over an already-lowered
link: `/bot/`, `t.me/bot`, `/invite/`, `t.me/invite` as substrings. -/
def tg_rejected (l : Str) : Bool :=
  containsSub (str (r"/bot/")) l || containsSub (str (r"t.me/bot")) l ||
  containsSub (str (r"/invite/")) l || containsSub (str (r"t.me/invite")) l

/-- link_utils.is_valid_link_for_extraction: early filter that drops empty
links and rejected telegram patterns, and accepts only links mentioning the
two supported platforms. -/
def is_valid_link_for_extraction (link : Str) : Bool :=
  if link.isEmpty then false
  else
    let ll := lowerS link
    if tg_rejected ll then false
    else if containsSub (str (r"t.me")) ll || containsSub (str (r"telegram.me")) ll then true
    else if containsSub (str (r"whatsapp.com")) ll || containsSub (str (r"wa.me")) ll then true
    else false

/-- link_utils.extract_links_from_message: scan the display text with
`URL_REGEX`, pre-filter each match, and collect the stripped survivors into
a set. -/
def extract_links_from_message (text : Str) : List Str :=
  dedupS (((urlFindall text).filter is_valid_link_for_extraction).map stripS)

/-- link_utils.extract_buttons_links: collect the URLs of the message's
buttons (a button contributes only when its `url` attribute is nonempty),
pre-filter, strip, into a set.  The model receives the flattened list of
button URL strings. -/
def extract_buttons_links (buttons : List Str) : List Str :=
  dedupS (((buttons.filter (fun b => !b.isEmpty)).filter is_valid_link_for_extraction).map stripS)

/-- link_utils.classify_telegram_link. -/
def classify_telegram_link (url : Str) : String × String :=
  let l := lowerS url
  if tgPlusMatch url then ((r"invite_with_plus"), (r"group"))
  else if tgWithoutPlusMatch url then
    ((r"invite_without_plus"),
      if containsSub (str (r"c/")) l || containsSub (str (r"channel/")) l then (r"channel")
      else (r"group"))
  else ((r"unknown"), (r"unknown"))

/-- link_utils.classify_whatsapp_link. -/
def classify_whatsapp_link (url : Str) : String :=
  if waGroupMatch url then (r"group")
  else if waPhoneMatch url then (r"private")
  else (r"unknown")

/-- Python `x.replace('_','').replace('-','').isalnum()`: note that
`''.isalnum()` is `False`, so a segment of only underscores and hyphens
fails the test. -/
def pyCleanAlnum (s : Str) : Bool :=
  let cleaned := s.filter (fun ch => ch != 95 && ch != 45)
  !cleaned.isEmpty && cleaned.all isAlnumC

/-- The bare-phone-number test of link_utils.is_valid_telegram_link: the
first path segment starts with `+`, has total length at most 12, and the
part after the `+` is a nonempty digit string of length 7 to 12. -/
def isPhoneSeg (seg : Str) : Bool :=
  match seg with
  | 43 :: rem =>
    decide (seg.length ≤ 12) && (!rem.isEmpty && rem.all isDigitC) &&
    decide (7 ≤ rem.length) && decide (rem.length ≤ 12)
  | _ => false

/-- link_utils.is_valid_telegram_link: lower and strip, reject the banned
patterns, require `t.me/`, parse the path after the first `t.me/` (cutting
query parameters), require a single path segment, reject bare phone-number
segments, and require the segment (after removing `_` and `-`, and after a
leading `+` when present) to be nonempty alphanumeric. -/
def is_valid_telegram_link (link : Str) : Bool :=
  let ll := stripS (lowerS link)
  if tg_rejected ll then false
  else if !containsSub (str (r"t.me/")) ll then false
  else
    let parts := splitOnS (str (r"t.me/")) ll
    if parts.length < 2 then false
    else
      let path_part := (splitOnS (str (r"?")) (parts.getD 1 [])).getD 0 []
      let path_segments := splitOnS (str (r"/")) path_part
      let first_segment := path_segments.getD 0 []
      if 1 < path_segments.length then false
      else if isPhoneSeg first_segment then false
      else
        match first_segment with
        | 43 :: rem => pyCleanAlnum rem
        | seg => pyCleanAlnum seg

/-- link_utils.filter_and_classify_link: the final filtering and
classification before persistence. -/
def filter_and_classify_link (url : Str) : Option (String × String) :=
  if !is_valid_link_for_extraction url then none
  else
    let l := lowerS url
    if containsSub (str (r"t.me")) l || containsSub (str (r"telegram.me")) l then
      if !is_valid_telegram_link url then none
      else
        let tc := classify_telegram_link url
        some ((r"telegram_") ++ tc.1, tc.2)
    else if containsSub (str (r"whatsapp.com")) l || containsSub (str (r"wa.me")) l then
      let ct := classify_whatsapp_link url
      if ct = (r"private") then none
      else if ct = (r"group") then some ((r"whatsapp"), (r"group"))
      else none
    else none


/-- collector.is_valid_telegram_link: the collector module's own (shadowing)
validator, used by the telegram branch of process_links_list and
process_files.  It lowers and strips the link, requires `t.me/`, rejects
`/bot/`, `t.me/bot/` and `/invite/`, takes the first path segment after the
first `t.me/` (cutting query parameters), and accepts a segment that starts
with `+` followed by at least one character, or is alphanumeric after
removing `_` and `-`. -/
def collector_is_valid_telegram_link (link : Str) : Bool :=
  let l := stripS (lowerS link)
  if containsSub (str (r"t.me/")) l then
    if containsSub (str (r"/bot/")) l || containsSub (str (r"t.me/bot/")) l ||
        containsSub (str (r"/invite/")) l then false
    else
      let parts := splitOnS (str (r"t.me/")) l
      if 1 < parts.length then
        let path := (splitOnS (str (r"/"))
          ((splitOnS (str (r"?")) (parts.getD 1 [])).getD 0 [])).getD 0 []
        match path with
        | 43 :: rem => if !rem.isEmpty then true else pyCleanAlnum (43 :: rem)
        | seg => pyCleanAlnum seg
      else false
  else false

/-- Decimal rendering of a natural number (fuel-driven, one digit per unit
of fuel). -/
def natToStrGo : Nat → Nat → Str
  | 0, _ => []
  | f + 1, n => if n < 10 then [48 + n] else natToStrGo f (n / 10) ++ [48 + n % 10]

/-- Decimal rendering of a natural number, the model of Python `str(n)` and
f-string interpolation for a nonnegative integer. -/
def natToStr (n : Nat) : Str := natToStrGo (n + 1) n

/-- Decimal rendering of an integer, the model of Python `str(i)`. -/
def intToStr (i : Int) : Str :=
  if i < 0 then 45 :: natToStr i.natAbs else natToStr i.natAbs

/-- Row of the `links` table created by database.init_db, whose `url`
column carries a UNIQUE constraint. -/
structure LinkRow where
  url : Str
  platform : String
  source_account : String
  chat_type : String
  chat_id : Str
  message_date : Int
  source_type : String
deriving DecidableEq, Repr

/-- The persistent store: the `links` table (in insertion order, row id =
position + 1, mirroring AUTOINCREMENT from 1) and the `telegram_types`
table of (link_id, telegram_type) pairs. -/
structure DB where
  links : List LinkRow
  telegram_types : List (Nat × String)
deriving DecidableEq, Repr

/-- Fault selection for the database layer underneath save_link: whether
opening the connection, the duplicate-check SELECT, the INSERTs, or the
COMMIT raises.  (The COUNT query that save_link runs after closing the
connection always raises a ProgrammingError and needs no flag.) -/
structure SaveFaults where
  openFails : Bool
  selectFails : Bool
  insertFails : Bool
  commitFails : Bool
deriving DecidableEq, Repr

/-- The fault-free database layer. -/
def noFaults : SaveFaults := ⟨false, false, false, false⟩

/-- Observable outcome of one save_link call: the resulting store, whether
the call reached get_connection, and whether an exception escaped to the
caller. -/
structure SaveOutcome where
  db : DB
  openedConnection : Bool
  raisedToCaller : Bool
deriving DecidableEq, Repr

/-- database.save_link.  `url?` is `none` for Python `None`; `if not url`
returns before the try block, so neither a connection is opened nor the
store touched.  Inside the try block every raise site — a faulted open,
SELECT, INSERT or COMMIT, and the unconditional ProgrammingError of the
COUNT query that runs on the already-closed connection — is caught by the
`except sqlite3.IntegrityError` / `except Exception` handlers, which do not
re-raise; the `finally` re-close of the connection cannot raise out either
(a NameError from an unbound `conn` is swallowed by the inner bare except).
Store changes become visible exactly when the COMMIT succeeds, which is
before the failing COUNT query. -/
def save_link_run (F : SaveFaults) (db : DB) (url? : Option Str)
    (platform : String) (source_account : String) (chat_type : String)
    (chat_id : Str) (message_date : Int) (source_type : String) : SaveOutcome :=
  match url? with
  | none => ⟨db, false, false⟩
  | some [] => ⟨db, false, false⟩
  | some url =>
    if F.openFails then ⟨db, true, false⟩
    else if F.selectFails then ⟨db, true, false⟩
    else if db.links.any (fun row => row.url == url) then ⟨db, true, false⟩
    else if F.insertFails then ⟨db, true, false⟩
    else if F.commitFails then ⟨db, true, false⟩
    else
      let newId := db.links.length + 1
      let row : LinkRow :=
        ⟨url, platform, source_account, chat_type, chat_id, message_date, source_type⟩
      let tts :=
        if platform.startsWith (r"telegram_") then
          db.telegram_types ++ [(newId, platform.replace (r"telegram_") (r""))]
        else db.telegram_types
      ⟨⟨db.links ++ [row], tts⟩, true, false⟩

/-- database.save_link under the fault-free database layer, as invoked by
the pipeline; the Python function returns None, so the store transition is
its whole observable behaviour. -/
def save_link (db : DB) (url : Str) (platform : String) (source_account : String)
    (chat_type : String) (chat_id : Str) (message_date : Int)
    (source_type : String) : DB :=
  (save_link_run noFaults db (some url) platform source_account chat_type
    chat_id message_date source_type).db

/-- Number of rows of the `links` table holding exactly this URL. -/
def url_row_count (db : DB) (url : Str) : Nat :=
  (db.links.filter (fun row => row.url == url)).length

/-- Arguments of one save_link call, for reasoning about call sequences. -/
structure SaveOp where
  url : Str
  platform : String
  source_account : String
  chat_type : String
  chat_id : Str
  message_date : Int
  source_type : String
deriving DecidableEq, Repr

/-- Run one save_link call from its packaged arguments. -/
def save_one (db : DB) (o : SaveOp) : DB :=
  save_link db o.url o.platform o.source_account o.chat_type o.chat_id
    o.message_date o.source_type

/-- Run a sequence of save_link calls. -/
def applySaves (db : DB) (ops : List SaveOp) : DB := ops.foldl save_one db

/-- file_extractors.MAX_CACHE_SIZE. -/
def MAX_CACHE_SIZE : Nat := 1000

/-- Value stored for one processed file in `_processed_files` of
file_extractors.py. -/
structure CacheEntry where
  hash : Str
  timestamp : Int
  links_found : Nat
deriving DecidableEq, Repr

/-- The `_processed_files` dict of file_extractors.py: identifier-keyed, in
insertion order (a refresh keeps the original position, as a Python dict
assignment to an existing key does). -/
abbrev FileCache := List (Str × CacheEntry)

/-- Keys of the cache in order. -/
def cacheKeys (c : FileCache) : List Str := c.map Prod.fst

/-- file_extractors.is_file_already_processed.  Both branches under a cache
hit return True (with or without a matching hash), so the hash argument
cannot change the result; the structure is kept to mirror the source. -/
def is_file_already_processed (cache : FileCache) (file_identifier : Str)
    (file_hash : Str) : Bool :=
  match cache.find? (fun e => e.1 == file_identifier) with
  | some cached =>
    if !file_hash.isEmpty && cached.2.hash == file_hash then true else true
  | none => false

/-- Ordering of cache entries by last-seen timestamp. -/
def tsLE (a b : Str × CacheEntry) : Prop := a.2.timestamp ≤ b.2.timestamp

instance : DecidableRel tsLE := fun a b =>
  inferInstanceAs (Decidable (a.2.timestamp ≤ b.2.timestamp))

/-- Stable sort of cache entries by last-seen timestamp, the model of
`sorted(_processed_files.keys(), key=lambda k: timestamp)` (Python's
`sorted` is a stable ascending sort, as insertion sort is). -/
def sortByTs (c : FileCache) : FileCache := List.insertionSort tsLE c

/-- file_extractors.add_to_processed_cache: when the cache has reached
MAX_CACHE_SIZE entries, delete the 100 entries oldest by timestamp (100 =
MAX_CACHE_SIZE / 10), then insert or refresh the identifier's entry with
the current time. -/
def add_to_processed_cache (cache : FileCache) (file_identifier : Str)
    (file_hash : Str) (links_found : Nat) (now : Int) : FileCache :=
  let cache1 :=
    if MAX_CACHE_SIZE ≤ cache.length then
      let oldest_keys := cacheKeys ((sortByTs cache).take 100)
      cache.filter (fun e => !(oldest_keys.contains e.1))
    else cache
  let entry : CacheEntry := ⟨file_hash, now, links_found⟩
  if cache1.any (fun e => e.1 == file_identifier) then
    cache1.map (fun e => if e.1 == file_identifier then (file_identifier, entry) else e)
  else cache1 ++ [(file_identifier, entry)]

/-- file_extractors.clear_file_cache. -/
def clear_file_cache (_cache : FileCache) : FileCache := []

/-- Arguments of one record (add_to_processed_cache) operation. -/
structure RecordOp where
  id : Str
  hash : Str
  links_found : Nat
  now : Int
deriving DecidableEq, Repr

/-- Run a sequence of record operations against the cache. -/
def apply_records (cache : FileCache) (ops : List RecordOp) : FileCache :=
  ops.foldl (fun c o => add_to_processed_cache c o.id o.hash o.links_found o.now) cache

/-- Attachment carried by a message.  `name` is `None` or the filename;
`hash` is the md5 the external hashing step yields after download (empty on
hashing failure); `extracted_text` is the text the format-specific reader
(PyPDF2 / python-docx / antiword / plain read) produces for the downloaded
file, which the source then scans with the shared URL pattern. -/
structure FileInfo where
  fileId : Nat
  size : Nat
  name : Option Str
  mime_type : Str
  hash : Str
  extracted_text : Str
deriving DecidableEq, Repr

/-- The `message.replies` (MessageReplies) data the extractors consult:
whether the thread is a comment thread, the reply count, and whether a
comments peer is exposed. -/
structure RepliesInfo where
  comments : Bool
  count : Nat
  has_peer : Bool
deriving DecidableEq, Repr

/-- The message fields the pipeline reads. -/
structure Msg where
  msgId : Nat
  text : Str
  buttons : List Str
  chat_id : Int
  date : Int
  file : Option FileInfo
  replies : Option RepliesInfo
deriving DecidableEq, Repr

/-- A top-level reply of a discussion thread together with its own nested
replies, as the bounded comment extractor walks them. -/
structure TopReply where
  msg : Msg
  sub : List Msg
deriving DecidableEq, Repr

/-- file_extractors.SUPPORTED_EXTENSIONS as (extension, declared mime)
pairs. -/
def SUPPORTED_EXTENSIONS : List (Str × Str) :=
  [ (str (r".pdf"), str (r"application/pdf")),
    (str (r".docx"),
      str (r"application/vnd.openxmlformats-officedocument.wordprocessingml.document")),
    (str (r".doc"), str (r"application/msword")),
    (str (r".txt"), str (r"text/plain")),
    (str (r".rtf"), str (r"application/rtf")),
    (str (r".odt"), str (r"application/vnd.oasis.opendocument.text")) ]

/-- Extension part of `os.path.splitext` for a bare filename: the suffix
from the last dot on, where dots leading the name do not count as an
extension separator. -/
def splitextExt (name : Str) : Str :=
  let leading := (name.takeWhile (fun c => c == 46)).length
  let rest := name.drop leading
  let afterDot := rest.reverse.takeWhile (fun c => c != 46)
  if afterDot.length == rest.length then []
  else 46 :: afterDot.reverse

/-- file_extractors.is_file_supported: accept by extension, else — when a
mime type is declared — accept when the mime type occurs as a substring of
one of the supported mime constants (the Python test is
`mime_type in supported_mime`). -/
def is_file_supported (filename : Str) (mime_type : Str) : Bool :=
  if filename.isEmpty then false
  else
    let ext := splitextExt (lowerS filename)
    if SUPPORTED_EXTENSIONS.any (fun p => p.1 == ext) then true
    else if !mime_type.isEmpty then
      SUPPORTED_EXTENSIONS.any (fun p => containsSub mime_type p.2)
    else false

/-- file_extractors.get_file_identifier: `"{id}_{size}"`, prepended with
the lowered filename when the attachment has a (truthy) name.  The second
component is the lowered filename the function also returns (used only for
logging). -/
def get_file_identifier (file? : Option FileInfo) : Str × Str :=
  match file? with
  | none => ([], [])
  | some f =>
    let base := natToStr f.fileId ++ [95] ++ natToStr f.size
    match f.name with
    | some n => if n.isEmpty then (base, []) else (lowerS n ++ [95] ++ base, lowerS n)
    | none => (base, [])

/-- file_extractors MAX_FILE_SIZE: 50 MB. -/
def MAX_FILE_SIZE : Nat := 50 * 1024 * 1024

/-- file_extractors.download_file_with_progress: refuse files strictly over
MAX_FILE_SIZE without downloading; otherwise succeed exactly when the
external download does (`downloadOk`). -/
def download_file_with_progress (downloadOk : Bool) (f : FileInfo) : Bool :=
  if MAX_FILE_SIZE < f.size then false else downloadOk

/-- Shared text scan of the four format extractors: find URLs with
URL_REGEX, pre-filter with is_valid_link_for_extraction, collect stripped
survivors into a set. -/
def scanTextLinks (content : Str) : List Str :=
  dedupS (((urlFindall content).filter is_valid_link_for_extraction).map stripS)

/-- file_extractors._extract_from_txt on the file's text. -/
def extract_from_txt (content : Str) : List Str := scanTextLinks content

/-- file_extractors._extract_from_pdf on the concatenated page text the PDF
library yields. -/
def extract_from_pdf (content : Str) : List Str := scanTextLinks content

/-- file_extractors._extract_from_docx on the concatenated paragraph, table
and comment text python-docx yields. -/
def extract_from_docx (content : Str) : List Str := scanTextLinks content

/-- file_extractors._extract_from_doc on the text antiword yields. -/
def extract_from_doc (content : Str) : List Str := scanTextLinks content

/-- The filename extract_links_from_file works with:
`message.file.name or "file"`. -/
def effective_filename (f : FileInfo) : Str :=
  match f.name with
  | some n => if n.isEmpty then str (r"file") else n
  | none => str (r"file")

/-- Result of one extract_links_from_file call: the links, the resulting
cache, and whether the call reached the download step. -/
structure ExtractResult where
  links : List Str
  cache : FileCache
  downloaded : Bool
deriving DecidableEq, Repr

/-- file_extractors.extract_links_from_file: skip messages without a file,
unsupported types, empty identifiers and already-cached identifiers — all
without downloading and without touching the cache; then download (skipping
oversized files), re-check the cache with the hash, extract by extension or
mime type, and record the identifier with the link count — also when the
extraction yielded zero links. -/
def extract_links_from_file (downloadOk : Bool) (now : Int) (cache : FileCache)
    (msg : Msg) : ExtractResult :=
  match msg.file with
  | none => ⟨[], cache, false⟩
  | some f =>
    let filename := effective_filename f
    let mime := f.mime_type
    if !is_file_supported filename mime then ⟨[], cache, false⟩
    else
      let fid := (get_file_identifier (some f)).1
      if fid.isEmpty then ⟨[], cache, false⟩
      else if is_file_already_processed cache fid [] then ⟨[], cache, false⟩
      else if !download_file_with_progress downloadOk f then ⟨[], cache, true⟩
      else if !f.hash.isEmpty && is_file_already_processed cache fid f.hash then
        ⟨[], cache, true⟩
      else
        let ext := splitextExt (lowerS filename)
        let links :=
          if ext == str (r".pdf") || mime == str (r"application/pdf") then
            extract_from_pdf f.extracted_text
          else if ext == str (r".docx") ||
              mime == str (r"application/vnd.openxmlformats-officedocument.wordprocessingml.document") then
            extract_from_docx f.extracted_text
          else if ext == str (r".doc") || mime == str (r"application/msword") then
            extract_from_doc f.extracted_text
          else if ext == str (r".txt") || mime == str (r"text/plain") then
            extract_from_txt f.extracted_text
          else []
        ⟨links, add_to_processed_cache cache fid f.hash links.length now, true⟩

/-- collector.is_within_last_60_days: the message date is strictly after
now minus 60 days (times in seconds). -/
def is_within_last_60_days (now : Int) (message_date : Int) : Bool :=
  decide (now - 60 * 86400 < message_date)

/-- collector.extract_comment_links, the comment extractor process_message
invokes: when the message's replies are a comment thread with a positive
count, iterate every reply of the thread — `client.iter_messages` is called
without any `limit` — and concatenate each reply's text links. -/
def extract_comment_links (msg : Msg) (thread : List Msg) : List Str :=
  match msg.replies with
  | none => []
  | some r =>
    if r.comments && decide (0 < r.count) then
      (thread.map (fun m => extract_links_from_message m.text)).foldr (· ++ ·) []
    else []

/-- Number of replies collector.extract_comment_links iterates for the
given thread: all of them when the comment condition holds. -/
def extract_comment_links_fetches (msg : Msg) (thread : List Msg) : Nat :=
  match msg.replies with
  | none => 0
  | some r => if r.comments && decide (0 < r.count) then thread.length else 0

/-- The nested-reply condition of comment_extractor.extract_comments_links:
the reply carries a replies object with a positive count. -/
def nestedActive (m : Msg) : Bool :=
  match m.replies with
  | none => false
  | some r => decide (0 < r.count)

/-- Links one top-level reply contributes in
comment_extractor.extract_comments_links: its own filtered text links, and
— when its nested condition holds — the filtered text links of at most 50
of its nested replies. -/
def topReplyLinks (tr : TopReply) : List Str :=
  let base := ((extract_links_from_message tr.msg.text).filter
    is_valid_link_for_extraction).map stripS
  if nestedActive tr.msg then
    base ++ ((tr.sub.take 50).map (fun m =>
      ((extract_links_from_message m.text).filter
        is_valid_link_for_extraction).map stripS)).foldr (· ++ ·) []
  else base

/-- comment_extractor.extract_comments_links (imported by collector.py but
not invoked by its per-message pipeline): when the message's replies are a
comment thread with a positive count and a comments peer, iterate at most
100 top-level replies (`limit=100`) and per qualifying reply at most 50
nested replies (`limit=50`), collecting filtered stripped links into a
set. -/
def extract_comments_links (msg : Msg) (thread : List TopReply) : List Str :=
  match msg.replies with
  | none => []
  | some r =>
    if r.comments && decide (0 < r.count) then
      if !r.has_peer then []
      else dedupS (((thread.take 100).map topReplyLinks).foldr (· ++ ·) [])
    else []

/-- Number of top-level replies comment_extractor.extract_comments_links
iterates. -/
def extract_comments_links_top_fetches (msg : Msg) (thread : List TopReply) : Nat :=
  match msg.replies with
  | none => 0
  | some r =>
    if r.comments && decide (0 < r.count) then
      if !r.has_peer then 0 else (thread.take 100).length
    else 0

/-- Number of nested replies comment_extractor.extract_comments_links
iterates for one top-level reply it visits. -/
def nested_fetches (tr : TopReply) : Nat :=
  if nestedActive tr.msg then (tr.sub.take 50).length else 0

/-- Mutable state the collector pipeline threads through message
processing: the links store, collector.py's own `_processed_files` set of
`"{name}_{size}"` file ids, and file_extractors.py's `_processed_files`
identifier cache. -/
structure PipeState where
  db : DB
  collector_processed_files : List Str
  file_cache : FileCache
deriving DecidableEq, Repr

/-- The shared per-link body of collector.process_links_list and the link
loop of collector.process_files (the two loops are textually identical in
the source): classify the link, then save WhatsApp group links within the
60-day window; the `elif platform == 'telegram'` branch — including its
collector_is_valid_telegram_link check and its `t.me/+` prefix test on the
full URL — is translated as written, although filter_and_classify_link
returns `telegram_invite_with_plus` / `telegram_invite_without_plus` /
`telegram_unknown` and never the bare string `telegram`. -/
def process_link (now : Int) (msg : Msg) (account_name : String)
    (source_type : String) (db : DB) (link : Str) : DB :=
  match filter_and_classify_link link with
  | none => db
  | some (platform, link_chat_type) =>
    if platform = (r"whatsapp") then
      if !is_within_last_60_days now msg.date then db
      else save_link db link platform account_name link_chat_type
        (intToStr msg.chat_id) msg.date source_type
    else if platform = (r"telegram") then
      if collector_is_valid_telegram_link link then
        let telegram_type :=
          if prefOf (str (r"t.me/+")) link then (r"invite_with_plus")
          else (r"invite_without_plus")
        save_link db link ((r"telegram_") ++ telegram_type) account_name
          link_chat_type (intToStr msg.chat_id) msg.date source_type
      else db
    else db

/-- collector.process_links_list. -/
def process_links_list (now : Int) (links : List Str) (msg : Msg)
    (account_name : String) (source_type : String) (db : DB) : DB :=
  links.foldl (process_link now msg account_name source_type) db

/-- collector.process_files: skip messages without a file; build the
collector-level id `"{name}_{size}"` (rendering a missing name as `None`,
as the f-string does); skip ids already in collector.py's own
`_processed_files` set, else add the id, run the file extractor, and feed
every extracted link through the shared per-link body with source type
`file`. -/
def process_files (downloadOk : Bool) (now : Int) (st : PipeState) (msg : Msg)
    (account_name : String) : PipeState :=
  match msg.file with
  | none => st
  | some f =>
    let file_name := match f.name with
      | some n => n
      | none => str (r"None")
    let file_id := file_name ++ [95] ++ natToStr f.size
    if st.collector_processed_files.contains file_id then st
    else
      let pf := st.collector_processed_files ++ [file_id]
      let res := extract_links_from_file downloadOk now st.file_cache msg
      let db' := res.links.foldl (process_link now msg account_name (r"file")) st.db
      ⟨db', pf, res.cache⟩

/-- collector.process_message, the per-message pipeline: messages without
display text are skipped whole (`if not message or not message.text`);
otherwise text links, button links, comment links (via the unbounded
extract_comment_links over the message's reply thread) and file links are
processed in that order. -/
def process_message (downloadOk : Bool) (now : Int) (thread : List Msg)
    (st : PipeState) (msg : Msg) (account_name : String) : PipeState :=
  if msg.text.isEmpty then st
  else
    let db1 := process_links_list now (extract_links_from_message msg.text)
      msg account_name (r"text") st.db
    let db2 := process_links_list now (extract_buttons_links msg.buttons)
      msg account_name (r"button") db1
    let db3 := process_links_list now (extract_comment_links msg thread)
      msg account_name (r"comment") db2
    process_files downloadOk now ⟨db3, st.collector_processed_files, st.file_cache⟩
      msg account_name

/-- Backfill of one conversation (the inner loop of
collector.collect_old_messages while `_collecting` stays true): the
messages in oldest-to-newest order, each paired with its reply thread, fed
through process_message. -/
def backfill_conversation (downloadOk : Bool) (now : Int) (account_name : String)
    (st : PipeState) (msgs : List (Msg × List Msg)) : PipeState :=
  msgs.foldl (fun s p => process_message downloadOk now p.2 s p.1 account_name) st

/-- The collector module's shared state: the `_collecting` flag, the
`_stop_event`, the `_clients` list (by account name) and collector.py's own
`_processed_files` set. -/
structure CollectorState where
  collecting : Bool
  stop_event_set : Bool
  clients : List String
  processed_files : List Str
deriving DecidableEq, Repr

/-- Result of collector.start_collection: the module state, the file
extractor's identifier cache, and the sessions for which run_client worker
tasks were spawned. -/
structure StartResult where
  state : CollectorState
  file_cache : FileCache
  spawned : List String
deriving DecidableEq, Repr

/-- collector.start_collection: return unchanged when `_collecting` is
already true, or when no sessions are configured; otherwise set
`_collecting`, clear the stop event, reset `_clients`, clear collector.py's
own `_processed_files` set, and spawn one worker per session.  The function
never calls file_extractors.clear_file_cache, so the file extractor's
identifier cache is passed through untouched on every path. -/
def start_collection (sessions : List String) (st : CollectorState)
    (file_cache : FileCache) : StartResult :=
  if st.collecting then ⟨st, file_cache, []⟩
  else if sessions.isEmpty then ⟨st, file_cache, []⟩
  else ⟨⟨true, false, [], []⟩, file_cache, sessions⟩

/-- collector.stop_collection: clear `_collecting` and set the stop event;
nothing else changes and no stored data is touched. -/
def stop_collection (st : CollectorState) : CollectorState :=
  ⟨false, true, st.clients, st.processed_files⟩

/-- Reference wall-clock instant (seconds) for the end-to-end scenario. -/
def C1_now : Int := 1700000000

/-- Scenario message 1: text carrying a telegram `+` invite and an
unrelated URL. -/
def C1_msg1 : Msg :=
  ⟨1, str (r"see https://t.me/+AAA and https://example.com"), [], 100,
    C1_now - 86400 * 30, none, none⟩

/-- Scenario message 2: a button linking to a WhatsApp group invite, dated
10 days before now. -/
def C1_msg2 : Msg :=
  ⟨2, str (r"join us"), [str (r"https://chat.whatsapp.com/BBB")], 100,
    C1_now - 86400 * 10, none, none⟩

/-- Scenario message 3's attachment: a `.txt` file whose text carries a
telegram channel link. -/
def C1_file3 : FileInfo :=
  ⟨7, 1000, some (str (r"links.txt")), str (r"text/plain"), str (r"abc123"),
    str (r"https://t.me/channelname")⟩

/-- Scenario message 3: the message carrying the `.txt` attachment. -/
def C1_msg3 : Msg :=
  ⟨3, str (r"attached doc"), [], 100, C1_now - 86400, some C1_file3, none⟩

/-- The three-message conversation of the end-to-end scenario, oldest to
newest, each message with an empty reply thread. -/
def C1_conversation : List (Msg × List Msg) :=
  [(C1_msg1, []), (C1_msg2, []), (C1_msg3, [])]

/-- State after backfilling the scenario conversation from an empty store
and empty caches, with downloads succeeding. -/
def C1_final : PipeState :=
  backfill_conversation true C1_now (r"acct") ⟨⟨[], []⟩, [], []⟩ C1_conversation

/-- A collector state that is not collecting. -/
def C7_state : CollectorState := ⟨false, true, [], [str (r"a_1")]⟩

/-- A nonempty file-extractor identifier cache present before a new
collection run starts. -/
def C7_cache : FileCache := [(str (r"old.pdf_1_11"), ⟨str (r"hh"), 0, 2⟩)]

/-- An attachment of unsupported type (extension `.xyz`, mime type not a
substring of any supported mime constant) with a perfectly valid document
identifier. -/
def C8_file : FileInfo :=
  ⟨3, 500, some (str (r"data.xyz")), str (r"application/octet-stream"),
    str (r"h1"), str (r"https://t.me/abc")⟩

/-- A message carrying the unsupported attachment. -/
def C8_msg : Msg := ⟨9, str (r"file msg"), [], 5, 0, some C8_file, none⟩

/-- A supported `.txt` attachment whose text contains no URL at all, so its
extraction yields zero links. -/
def C8_file_txt : FileInfo :=
  ⟨4, 100, some (str (r"notes.txt")), str (r"text/plain"), str (r"h2"),
    str (r"no links in here")⟩

/-- A message carrying the zero-link `.txt` attachment. -/
def C8_msg_txt : Msg := ⟨10, str (r"notes"), [], 5, 0, some C8_file_txt, none⟩

/-- A message whose replies form a comment thread announcing 101 replies. -/
def C9_msg : Msg := ⟨11, str (r"post"), [], 7, 0, none, some ⟨true, 101, true⟩⟩

/-- One plain reply message. -/
def C9_reply : Msg := ⟨12, str (r"re"), [], 7, 0, none, none⟩

/-- A discussion thread of 101 top-level replies. -/
def C9_thread : List Msg := List.replicate 101 C9_reply

/-- Packaged arguments of a save_link call for the C3 witness. -/
def C3_op1 : SaveOp :=
  ⟨str (r"https://chat.whatsapp.com/XYZ9"), (r"whatsapp"), (r"acct1"),
    (r"group"), str (r"5"), 0, (r"text")⟩

/-- A second call for the same URL from a different source and account. -/
def C3_op2 : SaveOp :=
  ⟨str (r"https://chat.whatsapp.com/XYZ9"), (r"whatsapp"), (r"acct2"),
    (r"group"), str (r"6"), 5, (r"button")⟩

/-- A full cache of 1000 distinct single-code-point identifiers, all with
equal timestamps, for exercising the eviction path. -/
def C6_big_cache : FileCache := (List.range 1000).map (fun i => ([i], ⟨[], 0, 0⟩))

/-!
Theorems.  Each claim of the specification corresponds to one theorem
below (with a counterexample theorem where the claim as stated fails on the
code, and a witness theorem where a proved theorem carries hypotheses).
-/

/-- C1: backfilling the scenario conversation — (1) text with
`https://t.me/+AAA` and `https://example.com`, (2) a button to
`https://chat.whatsapp.com/BBB` dated 10 days ago, (3) a `.txt` attachment
containing `https://t.me/channelname` — persists exactly ONE link (the
WhatsApp one), not the three the specification requires: both telegram
links are classified successfully, but the save branches compare the
platform subtype against the bare string `telegram`, which
filter_and_classify_link never returns, so no telegram link is ever saved.
`https://example.com` is indeed never persisted. -/
theorem C1_backfill_scenario_persists_only_whatsapp :
    C1_final.db.links.map LinkRow.url = [str (r"https://chat.whatsapp.com/BBB")] ∧
    C1_final.db.links.length = 1 ∧
    filter_and_classify_link (str (r"https://t.me/+AAA")) =
      some ((r"telegram_invite_with_plus"), (r"group")) ∧
    filter_and_classify_link (str (r"https://t.me/channelname")) =
      some ((r"telegram_invite_without_plus"), (r"group")) ∧
    str (r"https://example.com") ∉ C1_final.db.links.map LinkRow.url := by
  decide

/-- C2: the classification table of the specification, checked entry by
entry against filter_and_classify_link. -/
theorem C2_classification_table :
    filter_and_classify_link (str (r"https://t.me/+abcdef123")) =
      some ((r"telegram_invite_with_plus"), (r"group")) ∧
    filter_and_classify_link (str (r"https://t.me/mychannel")) =
      some ((r"telegram_invite_without_plus"), (r"group")) ∧
    filter_and_classify_link (str (r"https://t.me/+15551234567")) = none ∧
    filter_and_classify_link (str (r"https://t.me/bot/xyz")) = none ∧
    filter_and_classify_link (str (r"https://t.me/user/42")) = none ∧
    filter_and_classify_link (str (r"https://chat.whatsapp.com/ABC123")) =
      some ((r"whatsapp"), (r"group")) ∧
    filter_and_classify_link (str (r"https://wa.me/15551234567")) = none := by
  decide

/-- C5 counterexample: `https://x.t.me/abc` passes the validity check (its
first path segment after the first `t.me/` is `abc`) but matches neither
anchored telegram regex, so classification yields the platform subtype
`telegram_unknown`, outside the three values the claim allows. -/
theorem C5_counterexample :
    filter_and_classify_link (str (r"https://x.t.me/abc")) =
      some ((r"telegram_unknown"), (r"unknown")) ∧
    ((r"telegram_unknown") : String) ≠ (r"whatsapp") ∧
    ((r"telegram_unknown") : String) ≠ (r"telegram_invite_with_plus") ∧
    ((r"telegram_unknown") : String) ≠ (r"telegram_invite_without_plus") := by
  decide

/-- C5 amended: every classified link's platform subtype is `whatsapp`,
`telegram_invite_with_plus`, `telegram_invite_without_plus`, or the
fallthrough value `telegram_unknown` (produced for t.me links that pass the
validity check but match neither anchored regex). -/
theorem C5_platform_subtype_range (url : Str) (p ct : String)
    (h : filter_and_classify_link url = some (p, ct)) :
    p = (r"whatsapp") ∨ p = (r"telegram_invite_with_plus") ∨
    p = (r"telegram_invite_without_plus") ∨ p = (r"telegram_unknown") := by
  simp only [filter_and_classify_link] at h
  split at h
  · exact absurd h (by simp)
  · split at h
    · split at h
      · exact absurd h (by simp)
      · rw [Option.some.injEq, Prod.mk.injEq] at h
        obtain ⟨hp, -⟩ := h
        subst hp
        have h3 : (classify_telegram_link url).1 = (r"invite_with_plus") ∨
            (classify_telegram_link url).1 = (r"invite_without_plus") ∨
            (classify_telegram_link url).1 = (r"unknown") := by
          unfold classify_telegram_link
          split
          · left; rfl
          · split
            · right; left; rfl
            · right; right; rfl
        rcases h3 with h3 | h3 | h3 <;> rw [h3]
        · right; left; decide
        · right; right; left; decide
        · right; right; right; decide
    · split at h
      · split at h
        · exact absurd h (by simp)
        · split at h
          · rw [Option.some.injEq, Prod.mk.injEq] at h
            left; exact h.1.symm
          · exact absurd h (by simp)
      · exact absurd h (by simp)

/-- C5 witness: the theorem applied at a concrete classified link. -/
theorem C5_platform_subtype_range_witness :
    ((r"whatsapp") : String) = (r"whatsapp") ∨
    ((r"whatsapp") : String) = (r"telegram_invite_with_plus") ∨
    ((r"whatsapp") : String) = (r"telegram_invite_without_plus") ∨
    ((r"whatsapp") : String) = (r"telegram_unknown") :=
  C5_platform_subtype_range (str (r"https://chat.whatsapp.com/ABC123"))
    (r"whatsapp") (r"group") (by decide)

/-- C7 counterexample: with collection not running and one configured
session, start_collection leaves the file extractor's identifier cache
untouched — the entry recorded before the run is still reported as
processed afterwards — although the claim requires the Document Dedup
Cache to be emptied. -/
theorem C7_counterexample :
    C7_state.collecting = false ∧ C7_cache ≠ [] ∧
    (start_collection [(r"acct1")] C7_state C7_cache).state.collecting = true ∧
    (start_collection [(r"acct1")] C7_state C7_cache).file_cache = C7_cache ∧
    is_file_already_processed
      (start_collection [(r"acct1")] C7_state C7_cache).file_cache
      (str (r"old.pdf_1_11")) [] = true := by
  decide

/-- C7 amended: start_collection is a strict no-op when already collecting;
when idle with no configured session it is also a no-op; otherwise it sets
the collecting flag, resets the stop signal, resets the client list, clears
the collector's own processed-file set, and spawns one worker per session —
while the file extractor's identifier cache is passed through unchanged on
every path (clear_file_cache is never called). -/
theorem C7_start_collection_behaviour (sessions : List String)
    (st : CollectorState) (fc : FileCache) :
    (st.collecting = true → start_collection sessions st fc = ⟨st, fc, []⟩) ∧
    (st.collecting = false → sessions = [] →
      start_collection sessions st fc = ⟨st, fc, []⟩) ∧
    (st.collecting = false → sessions ≠ [] →
      start_collection sessions st fc = ⟨⟨true, false, [], []⟩, fc, sessions⟩) := by
  refine ⟨fun h => ?_, fun h hs => ?_, fun h hs => ?_⟩
  · simp [start_collection, h]
  · simp [start_collection, h, hs]
  · simp [start_collection, h, hs]

/-- C7 witness: the amended theorem applied at a concrete idle state with
one session and a nonempty file cache. -/
theorem C7_start_collection_witness :
    start_collection [(r"acct1")] C7_state C7_cache =
      ⟨⟨true, false, [], []⟩, C7_cache, [(r"acct1")]⟩ :=
  (C7_start_collection_behaviour [(r"acct1")] C7_state C7_cache).2.2 rfl (by decide)

/-- C8 counterexample: an attachment of unsupported type with a valid,
uncached document identifier is skipped before the cache is consulted, so
its identifier is never recorded — although the claim says unsupported
attachments are still recorded. -/
theorem C8_counterexample :
    (get_file_identifier (some C8_file)).1 ≠ [] ∧
    is_file_already_processed [] (get_file_identifier (some C8_file)).1 [] = false ∧
    extract_links_from_file true 0 [] C8_msg = ⟨[], [], false⟩ ∧
    cacheKeys (extract_links_from_file true 0 [] C8_msg).cache = [] := by
  decide

/-- C9 counterexample: for a comment thread of 101 replies, the comment
extractor invoked by process_message (extract_comment_links) iterates all
101 of them — its reply iteration has no `limit` — exceeding the bound of
100 the claim states. -/
theorem C9_counterexample :
    extract_comment_links_fetches C9_msg C9_thread = 101 ∧
    ¬ extract_comment_links_fetches C9_msg C9_thread ≤ 100 := by
  decide

/-- C9 amended: the comment extractor the pipeline invokes examines every
top-level reply of the thread, without any bound and without fetching
nested replies; the caps of 100 top-level and 50 nested replies belong to
the separate extract_comments_links function, which process_message does
not invoke. -/
theorem C9_comment_extractor_bounds :
    (∀ (msg : Msg) (thread : List Msg) (ri : RepliesInfo),
      msg.replies = some ri → ri.comments = true → 0 < ri.count →
      extract_comment_links_fetches msg thread = thread.length) ∧
    (∀ (msg : Msg) (nthread : List TopReply),
      extract_comments_links_top_fetches msg nthread ≤ 100) ∧
    (∀ tr : TopReply, nested_fetches tr ≤ 50) := by
  refine ⟨fun msg thread ri h hc hcount => ?_, fun msg nthread => ?_, fun tr => ?_⟩
  · simp [extract_comment_links_fetches, h, hc, hcount]
  · unfold extract_comments_links_top_fetches
    repeat' split
    all_goals first
      | exact Nat.zero_le _
      | exact List.length_take_le 100 nthread
  · unfold nested_fetches
    repeat' split
    all_goals first
      | exact Nat.zero_le _
      | exact List.length_take_le 50 tr.sub

/-- C9 witness: the amended theorem applied at the 101-reply thread. -/
theorem C9_comment_extractor_bounds_witness :
    extract_comment_links_fetches C9_msg C9_thread = C9_thread.length :=
  C9_comment_extractor_bounds.1 C9_msg C9_thread ⟨true, 101, true⟩ rfl rfl (by decide)

/-- C10: save_link never lets an exception escape to its caller — every
raise site of its body, including the COUNT query it runs on the
already-closed connection, sits inside the try block whose handlers swallow
the exception — and a falsy URL (None or empty) returns before the try
block, with no connection opened and the store untouched. -/
theorem C10_save_link_no_raise (F : SaveFaults) (db : DB)
    (platform source_account chat_type : String) (chat_id : Str)
    (message_date : Int) (source_type : String) :
    (∀ url?, (save_link_run F db url? platform source_account chat_type
      chat_id message_date source_type).raisedToCaller = false) ∧
    save_link_run F db none platform source_account chat_type
      chat_id message_date source_type = ⟨db, false, false⟩ ∧
    save_link_run F db (some []) platform source_account chat_type
      chat_id message_date source_type = ⟨db, false, false⟩ := by
  refine ⟨fun url? => ?_, rfl, rfl⟩
  rcases url? with - | (- | ⟨c, cs⟩)
  · rfl
  · rfl
  · unfold save_link_run
    repeat' split
    all_goals rfl

/-- save_link with an empty URL leaves the store unchanged. -/
theorem save_link_nil (db : DB) (platform source_account chat_type : String)
    (chat_id : Str) (message_date : Int) (source_type : String) :
    save_link db [] platform source_account chat_type chat_id message_date
      source_type = db := rfl

/-- save_link with a URL already present (the duplicate-check SELECT finds
a row) leaves the store unchanged. -/
theorem save_link_dup (db : DB) (url : Str) (hne : url ≠ [])
    (hm : db.links.any (fun row => row.url == url) = true)
    (platform source_account chat_type : String) (chat_id : Str)
    (message_date : Int) (source_type : String) :
    save_link db url platform source_account chat_type chat_id message_date
      source_type = db := by
  rcases url with - | ⟨c, cs⟩
  · exact absurd rfl hne
  · simp [save_link, save_link_run, noFaults, hm]

/-- save_link with a fresh nonempty URL appends exactly one row (and, for a
`telegram_`-prefixed platform, one telegram_types row). -/
theorem save_link_fresh (db : DB) (url : Str) (hne : url ≠ [])
    (hm : db.links.any (fun row => row.url == url) = false)
    (platform source_account chat_type : String) (chat_id : Str)
    (message_date : Int) (source_type : String) :
    save_link db url platform source_account chat_type chat_id message_date
      source_type =
      ⟨db.links ++ [⟨url, platform, source_account, chat_type, chat_id,
          message_date, source_type⟩],
        if platform.startsWith (r"telegram_") then
          db.telegram_types ++
            [(db.links.length + 1, platform.replace (r"telegram_") (r""))]
        else db.telegram_types⟩ := by
  rcases url with - | ⟨c, cs⟩
  · exact absurd rfl hne
  · simp [save_link, save_link_run, noFaults, hm]

/-- Row count of a URL after appending one row. -/
theorem url_row_count_append (links : List LinkRow) (tts tts' : List (Nat × String))
    (row : LinkRow) (url : Str) :
    url_row_count ⟨links ++ [row], tts⟩ url =
      url_row_count ⟨links, tts'⟩ url + (if row.url == url then 1 else 0) := by
  by_cases h : row.url = url <;>
    simp [url_row_count, List.filter_append, h]

/-- A URL with no row in the store fails the duplicate-check. -/
theorem any_eq_false_of_count_zero (db : DB) (url : Str)
    (h : url_row_count db url = 0) :
    db.links.any (fun row => row.url == url) = false := by
  unfold url_row_count at h
  rw [List.length_eq_zero] at h
  cases h2 : db.links.any (fun row => row.url == url)
  · rfl
  · rw [List.any_eq_true] at h2
    obtain ⟨x, hx, hpx⟩ := h2
    have : x ∈ db.links.filter (fun row => row.url == url) :=
      List.mem_filter.mpr ⟨hx, hpx⟩
    rw [h] at this
    cases this

/-- One save_link call keeps at most one row per URL. -/
theorem url_row_count_save_one_le (db : DB) (o : SaveOp) (url : Str)
    (h : url_row_count db url ≤ 1) :
    url_row_count (save_one db o) url ≤ 1 := by
  unfold save_one
  by_cases ho : o.url = []
  · rw [ho, save_link_nil]; exact h
  by_cases hm : db.links.any (fun row => row.url == o.url) = true
  · rw [save_link_dup db o.url ho hm]; exact h
  · rw [save_link_fresh db o.url ho (Bool.eq_false_iff.mpr hm)]
    rw [show (⟨db.links ++ [⟨o.url, o.platform, o.source_account, o.chat_type,
      o.chat_id, o.message_date, o.source_type⟩], _⟩ : DB) =
      ⟨db.links ++ [⟨o.url, o.platform, o.source_account, o.chat_type,
        o.chat_id, o.message_date, o.source_type⟩], _⟩ from rfl]
    rw [url_row_count_append db.links _ db.telegram_types _ url]
    by_cases hu : o.url = url
    · subst hu
      have h0 : url_row_count db o.url = 0 := by
        unfold url_row_count
        rw [List.length_eq_zero, List.filter_eq_nil_iff]
        intro x hx
        intro hpx
        exact hm (List.any_eq_true.mpr ⟨x, hx, hpx⟩)
      have : url_row_count ⟨db.links, db.telegram_types⟩ o.url = 0 := h0
      simp [this]
    · have : ((⟨o.url, o.platform, o.source_account, o.chat_type, o.chat_id,
        o.message_date, o.source_type⟩ : LinkRow).url == url) = false := by
        simpa using hu
      rw [this]
      simpa using h

/-- A sequence of save_link calls keeps at most one row per URL. -/
theorem url_row_count_applySaves_le (url : Str) :
    ∀ (ops : List SaveOp) (db : DB), url_row_count db url ≤ 1 →
      url_row_count (applySaves db ops) url ≤ 1 := by
  intro ops
  induction ops with
  | nil => intro db h; exact h
  | cons o rest ih =>
    intro db h
    have : applySaves db (o :: rest) = applySaves (save_one db o) rest := rfl
    rw [this]
    exact ih (save_one db o) (url_row_count_save_one_le db o url h)

/-- C3: for a nonempty URL with no row stored yet, the first save_link call
appends exactly one row (inserted = the store grew), the second call with
the same URL is a no-op (inserted = false, the store did not change), and
after any further sequence of calls, from any accounts and sources, the
store holds at most one row for that URL. -/
theorem C3_save_idempotent_unique (db : DB) (url : Str) (o1 o2 : SaveOp)
    (ops : List SaveOp) (hne : url ≠ []) (h0 : url_row_count db url = 0)
    (h1 : o1.url = url) (h2 : o2.url = url) :
    (save_one db o1).links.length = db.links.length + 1 ∧
    url_row_count (save_one db o1) url = 1 ∧
    save_one (save_one db o1) o2 = save_one db o1 ∧
    url_row_count (applySaves db ops) url ≤ 1 := by
  have hany : db.links.any (fun row => row.url == url) = false :=
    any_eq_false_of_count_zero db url h0
  have hfresh := save_link_fresh db o1.url (h1 ▸ hne) (h1 ▸ hany) o1.platform
    o1.source_account o1.chat_type o1.chat_id o1.message_date o1.source_type
  have hsave1 : save_one db o1 = ⟨db.links ++ [⟨o1.url, o1.platform,
      o1.source_account, o1.chat_type, o1.chat_id, o1.message_date,
      o1.source_type⟩],
      if o1.platform.startsWith (r"telegram_") then
        db.telegram_types ++
          [(db.links.length + 1, o1.platform.replace (r"telegram_") (r""))]
      else db.telegram_types⟩ := hfresh
  refine ⟨?_, ?_, ?_, url_row_count_applySaves_le url ops db (by omega)⟩
  · rw [hsave1]; simp
  · rw [hsave1, url_row_count_append db.links _ db.telegram_types _ url]
    have : url_row_count ⟨db.links, db.telegram_types⟩ url = 0 := h0
    simp [this, h1]
  · have hmem : (save_one db o1).links.any (fun row => row.url == o2.url) = true := by
      rw [hsave1, h2]
      refine List.any_eq_true.mpr ⟨⟨o1.url, o1.platform, o1.source_account,
        o1.chat_type, o1.chat_id, o1.message_date, o1.source_type⟩, ?_, ?_⟩
      · simp
      · simp [h1]
    unfold save_one
    exact save_link_dup (save_one db o1) o2.url (h2 ▸ hne) hmem o2.platform
      o2.source_account o2.chat_type o2.chat_id o2.message_date o2.source_type

/-- C3 witness: the theorem applied to a concrete WhatsApp URL saved twice
from two accounts and then replayed in a longer sequence. -/
theorem C3_save_idempotent_unique_witness :
    (save_one ⟨[], []⟩ C3_op1).links.length = (⟨[], []⟩ : DB).links.length + 1 ∧
    url_row_count (save_one ⟨[], []⟩ C3_op1)
      (str (r"https://chat.whatsapp.com/XYZ9")) = 1 ∧
    save_one (save_one ⟨[], []⟩ C3_op1) C3_op2 = save_one ⟨[], []⟩ C3_op1 ∧
    url_row_count (applySaves ⟨[], []⟩ [C3_op1, C3_op2, C3_op1])
      (str (r"https://chat.whatsapp.com/XYZ9")) ≤ 1 :=
  C3_save_idempotent_unique ⟨[], []⟩ (str (r"https://chat.whatsapp.com/XYZ9"))
    C3_op1 C3_op2 [C3_op1, C3_op2, C3_op1] (by decide) (by decide) (by decide)
    (by decide)

/-- The hash argument cannot influence is_file_already_processed: both
branches under a cache hit return true. -/
theorem is_file_already_processed_eq (cache : FileCache) (fid h : Str) :
    is_file_already_processed cache fid h =
      (cache.find? (fun e => e.1 == fid)).isSome := by
  unfold is_file_already_processed
  cases cache.find? (fun e => e.1 == fid) <;> simp

/-- Membership of a key in the cache key list. -/
theorem mem_cacheKeys_iff (c : FileCache) (k : Str) :
    k ∈ cacheKeys c ↔ ∃ e ∈ c, e.1 = k := by
  simp [cacheKeys, List.mem_map]

/-- A key present in the cache is reported as processed, for any hash. -/
theorem processed_of_mem_cacheKeys (c : FileCache) (k h : Str)
    (hk : k ∈ cacheKeys c) : is_file_already_processed c k h = true := by
  rw [is_file_already_processed_eq, List.find?_isSome]
  obtain ⟨e, he, hek⟩ := (mem_cacheKeys_iff c k).mp hk
  exact ⟨e, he, by simp [hek]⟩

/-- A key absent from the cache is reported as unprocessed, for any hash. -/
theorem not_processed_iff_not_mem (c : FileCache) (k h : Str) :
    is_file_already_processed c k h = false ↔ k ∉ cacheKeys c := by
  rw [is_file_already_processed_eq, Bool.eq_false_iff, Ne, List.find?_isSome]
  constructor
  · intro hno hk
    obtain ⟨e, he, hek⟩ := (mem_cacheKeys_iff c k).mp hk
    exact hno ⟨e, he, by simp [hek]⟩
  · intro hk hex
    obtain ⟨e, he, hpe⟩ := hex
    exact hk ((mem_cacheKeys_iff c k).mpr ⟨e, he, by simpa using hpe⟩)

/-- Recording an identifier always leaves it present in the cache. -/
theorem mem_cacheKeys_add (c : FileCache) (fid h : Str) (n : Nat) (t : Int) :
    fid ∈ cacheKeys (add_to_processed_cache c fid h n t) := by
  unfold add_to_processed_cache
  set c1 := if MAX_CACHE_SIZE ≤ c.length then
      c.filter (fun e => !((cacheKeys ((sortByTs c).take 100)).contains e.1))
    else c with hc1
  by_cases hany : c1.any (fun e => e.1 == fid) = true
  · rw [if_pos hany]
    obtain ⟨e, he, hpe⟩ := List.any_eq_true.mp hany
    refine (mem_cacheKeys_iff _ _).mpr ⟨(fid, ⟨h, t, n⟩), List.mem_map.mpr ⟨e, he, ?_⟩, rfl⟩
    simp [hpe]
  · rw [if_neg hany]
    exact (mem_cacheKeys_iff _ _).mpr ⟨(fid, ⟨h, t, n⟩), by simp, rfl⟩

/-- Evaluation of extract_links_from_file down the success path: supported
type, fresh identifier, successful download; the identifier is recorded
with the extracted link count, whatever that count is. -/
theorem extract_links_from_file_run (downloadOk : Bool) (now : Int)
    (cache : FileCache) (msg : Msg) (f : FileInfo) (hf : msg.file = some f)
    (hsupp : is_file_supported (effective_filename f) f.mime_type = true)
    (hid : (get_file_identifier (some f)).1 ≠ [])
    (hnew : is_file_already_processed cache (get_file_identifier (some f)).1 [] = false)
    (hdl : download_file_with_progress downloadOk f = true) :
    ∃ links, extract_links_from_file downloadOk now cache msg =
      ⟨links, add_to_processed_cache cache (get_file_identifier (some f)).1
        f.hash links.length now, true⟩ := by
  have hnew2 : is_file_already_processed cache (get_file_identifier (some f)).1
      f.hash = false := by
    rw [is_file_already_processed_eq] at hnew ⊢
    exact hnew
  have hidb : (get_file_identifier (some f)).1.isEmpty = false := by
    rcases hgi : (get_file_identifier (some f)).1 with - | ⟨c, cs⟩
    · exact absurd hgi hid
    · rfl
  unfold extract_links_from_file
  rw [hf]
  simp only [hsupp, hidb, hnew, hnew2, hdl, Bool.not_true, Bool.not_false,
    Bool.and_false, Bool.false_eq_true, if_false, if_true, ite_false, ite_true]
  exact ⟨_, rfl⟩

/-- C8 amended: after the file extractor processes a supported attachment
with a valid, uncached identifier and a successful download, the identifier
is recorded in the dedup cache — including when the extraction yields zero
links — and any later attachment carrying the same identifier is never
downloaded again; attachments of unsupported type, however, are skipped
before the cache is consulted and are not recorded. -/
theorem C8_supported_attachments_recorded (downloadOk : Bool) (now : Int)
    (cache : FileCache) (msg : Msg) (f : FileInfo) (hf : msg.file = some f)
    (hsupp : is_file_supported (effective_filename f) f.mime_type = true)
    (hid : (get_file_identifier (some f)).1 ≠ [])
    (hnew : is_file_already_processed cache (get_file_identifier (some f)).1 [] = false)
    (hdl : download_file_with_progress downloadOk f = true) :
    (get_file_identifier (some f)).1 ∈
      cacheKeys (extract_links_from_file downloadOk now cache msg).cache ∧
    ∀ (dOk2 : Bool) (now2 : Int) (msg2 : Msg),
      (get_file_identifier msg2.file).1 = (get_file_identifier (some f)).1 →
      (extract_links_from_file dOk2 now2
        (extract_links_from_file downloadOk now cache msg).cache msg2).downloaded
        = false := by
  obtain ⟨links, hrun⟩ := extract_links_from_file_run downloadOk now cache msg f
    hf hsupp hid hnew hdl
  rw [hrun]
  refine ⟨mem_cacheKeys_add _ _ _ _ _, ?_⟩
  intro dOk2 now2 msg2 hsame
  rcases h2 : msg2.file with - | f2
  · simp [extract_links_from_file, h2]
  · have hsame2 : (get_file_identifier (some f2)).1 = (get_file_identifier (some f)).1 := by
      rw [← h2, hsame]
    unfold extract_links_from_file
    rw [h2]
    by_cases hs2 : is_file_supported (effective_filename f2) f2.mime_type = true
    · have hproc : is_file_already_processed
          (add_to_processed_cache cache (get_file_identifier (some f)).1
            f.hash links.length now)
          (get_file_identifier (some f2)).1 [] = true := by
        rw [hsame2]
        exact processed_of_mem_cacheKeys _ _ _ (mem_cacheKeys_add _ _ _ _ _)
      have hid2 : ¬ (get_file_identifier (some f2)).1.isEmpty = true := by
        rw [List.isEmpty_iff, hsame2]
        exact hid
      simp [hs2, hid2, hproc]
    · simp [Bool.eq_false_iff.mpr hs2]

/-- C8 witness: the amended theorem applied to a supported `.txt`
attachment whose extraction yields zero links; its identifier is still
recorded. -/
theorem C8_supported_attachments_recorded_witness :
    ((get_file_identifier (some C8_file_txt)).1 ∈
      cacheKeys (extract_links_from_file true 0 [] C8_msg_txt).cache) ∧
    (extract_links_from_file true 0 [] C8_msg_txt).links = [] :=
  ⟨(C8_supported_attachments_recorded true 0 [] C8_msg_txt C8_file_txt rfl
      (by decide) (by decide) (by decide) (by decide)).1,
    by decide⟩

/-- Every character of a matched leading segment occurs in the string. -/
theorem prefOf_mem (p : Str) : ∀ (s : Str), prefOf p s = true → ∀ c ∈ p, c ∈ s := by
  induction p with
  | nil => intro s _ c hc; cases hc
  | cons a as ih =>
    intro s hp c hc
    rcases s with - | ⟨b, bs⟩
    · cases hp
    · obtain ⟨hab, hrest⟩ : (a == b) = true ∧ prefOf as bs = true := by
        simpa [prefOf] using hp
    
      rcases List.mem_cons.mp hc with hca | hca
      · subst hca
        exact List.mem_cons.mpr (Or.inl (by simpa using hab))
      · exact List.mem_cons.mpr (Or.inr (ih bs hrest c hca))

/-- Every character of an occurring substring occurs in the string. -/
theorem containsSub_mem (p : Str) : ∀ (s : Str), containsSub p s = true → ∀ c ∈ p, c ∈ s := by
  intro s
  induction s with
  | nil =>
    intro h c hc
    have : p = [] := by simpa [containsSub, List.isEmpty_iff] using h
    subst this; cases hc
  | cons b bs ih =>
    intro h c hc
    rcases Bool.or_eq_true_iff.mp (by simpa [containsSub] using h) with h1 | h1
    · exact prefOf_mem p (b :: bs) h1 c hc
    · exact List.mem_cons.mpr (Or.inr (ih h1 c hc))

/-- A pattern holding a character absent from the string never occurs. -/
theorem containsSub_eq_false (p s : Str) (c : Nat) (hcp : c ∈ p) (hcs : c ∉ s) :
    containsSub p s = false := by
  cases h : containsSub p s
  · rfl
  · exact absurd (containsSub_mem p s h c hcp) hcs

/-- A leading segment stays one after appending on the right. -/
theorem prefOf_append_ext (p : Str) : ∀ (a s : Str), prefOf p a = true →
    prefOf p (a ++ s) = true := by
  induction p with
  | nil => intro a s _; rfl
  | cons x xs ih =>
    intro a s hp
    rcases a with - | ⟨b, bs⟩
    · cases hp
    · obtain ⟨hab, hrest⟩ : (x == b) = true ∧ prefOf xs bs = true := by
        simpa [prefOf] using hp
      simpa [prefOf, hab] using ih bs s hrest

/-- A matched leading segment is an occurrence. -/
theorem containsSub_of_prefOf (p s : Str) (h : prefOf p s = true) :
    containsSub p s = true := by
  rcases s with - | ⟨b, bs⟩
  · rcases p with - | ⟨x, xs⟩
    · rfl
    · cases h
  · simp [containsSub, h]

/-- An occurrence survives prepending a character. -/
theorem containsSub_cons (p s : Str) (c : Nat) (h : containsSub p s = true) :
    containsSub p (c :: s) = true := by
  simp [containsSub, h]

/-- An occurrence inside the left part survives appending. -/
theorem containsSub_append_of_left (p : Str) : ∀ (a s : Str),
    containsSub p a = true → containsSub p (a ++ s) = true := by
  intro a
  induction a with
  | nil =>
    intro s h
    have : p = [] := by simpa [containsSub, List.isEmpty_iff] using h
    subst this
    rcases s with - | ⟨b, bs⟩
    · rfl
    · simp [containsSub, prefOf]
  | cons b bs ih =>
    intro s h
    rcases Bool.or_eq_true_iff.mp (by simpa [containsSub] using h) with h1 | h1
    · have : prefOf p ((b :: bs) ++ s) = true := prefOf_append_ext p (b :: bs) s h1
      exact containsSub_of_prefOf p _ this
    · exact containsSub_cons p (bs ++ s) b (ih s h1)

/-- An occurrence inside the right part survives prepending. -/
theorem containsSub_append_of_right (p : Str) : ∀ (a s : Str),
    containsSub p s = true → containsSub p (a ++ s) = true := by
  intro a
  induction a with
  | nil => intro s h; exact h
  | cons b bs ih => intro s h; exact containsSub_cons p (bs ++ s) b (ih s h)

/-- Lowercasing fixes an ASCII digit. -/
theorem lowerC_digit (c : Nat) (h : isDigitC c = true) : lowerC c = c := by
  unfold isDigitC at h
  unfold lowerC
  rw [if_neg]
  intro hc
  have := of_decide_eq_true h
  omega

/-- Lowercasing fixes a digit string. -/
theorem lowerS_digits (ds : Str) (h : ∀ c ∈ ds, isDigitC c = true) :
    lowerS ds = ds := by
  unfold lowerS
  induction ds with
  | nil => rfl
  | cons c cs ih =>
    simp only [List.map_cons, lowerC_digit c (h c (List.mem_cons_self c cs)),
      List.cons.injEq, true_and]
    exact ih (fun x hx => h x (List.mem_cons.mpr (Or.inr hx)))

/-- dropWhile is the identity when no character satisfies the predicate. -/
theorem dropWhile_eq_self_of_none (p : Nat → Bool) : ∀ (l : Str),
    (∀ c ∈ l, p c = false) → List.dropWhile p l = l := by
  intro l h
  rcases l with - | ⟨c, cs⟩
  · rfl
  · rw [List.dropWhile_cons, if_neg]
    simp [h c (List.mem_cons_self c cs)]

/-- strip is the identity on a string with no whitespace. -/
theorem stripS_eq_self (s : Str) (h : ∀ c ∈ s, isSpaceC c = false) :
    stripS s = s := by
  unfold stripS
  rw [dropWhile_eq_self_of_none isSpaceC s h,
    dropWhile_eq_self_of_none isSpaceC s.reverse
      (fun c hc => h c (List.mem_reverse.mp hc)),
    List.reverse_reverse]

/-- Single unfolding step of the split worker. -/
theorem splitOnGo_step (sep : Str) (f : Nat) (c : Nat) (cs : Str) :
    splitOnGo sep (f + 1) (c :: cs) =
      if prefOf sep (c :: cs) then
        [] :: splitOnGo sep f ((c :: cs).drop sep.length)
      else
        match splitOnGo sep f cs with
        | [] => [[c]]
        | q :: qs => (c :: q) :: qs := rfl

/-- With no occurrence of the separator the split returns the whole string,
for every fuel value. -/
theorem splitOnGo_no_occ (sep : Str) (fuel : Nat) : ∀ (s : Str),
    containsSub sep s = false → splitOnGo sep fuel s = [s] := by
  induction fuel with
  | zero => intro s _; rfl
  | succ f ih =>
    intro s h
    rcases s with - | ⟨c, cs⟩
    · rfl
    · obtain ⟨h1, h2⟩ : prefOf sep (c :: cs) = false ∧ containsSub sep cs = false := by
        simpa [containsSub] using h
      rw [splitOnGo_step, if_neg (by simp [h1]), ih cs h2]

/-- Python split with no occurrence of a nonempty separator. -/
theorem splitOnS_no_occ (sep s : Str) (hsep : sep.isEmpty = false)
    (h : containsSub sep s = false) : splitOnS sep s = [s] := by
  unfold splitOnS
  rw [if_neg (by simp [hsep]), splitOnGo_no_occ sep s.length s h]

/-- Splitting `https://t.me/+<digits>` on `t.me/` yields exactly the scheme
part and the `+<digits>` segment: the single occurrence of the separator
sits at position 8, and no occurrence can start inside the digit tail. -/
theorem splitOn_tme_of_digits (ds : Str) (hds : ∀ c ∈ ds, isDigitC c = true) :
    splitOnS (str (r"t.me/")) (str (r"https://t.me/+") ++ ds) =
      [str (r"https://"), 43 :: ds] := by
  have h116 : (116 : Nat) ∉ 43 :: ds := by
    intro hmem
    rcases List.mem_cons.mp hmem with h | h
    · exact absurd h (by decide)
    · have := of_decide_eq_true (hds 116 h)
      omega
  have hno : containsSub [116, 46, 109, 101, 47] (43 :: ds) = false :=
    containsSub_eq_false _ _ 116 (by decide) h116
  have hpre : str (r"https://t.me/+") ++ ds =
      104 :: 116 :: 116 :: 112 :: 115 :: 58 :: 47 :: 47 :: 116 :: 46 :: 109 ::
        101 :: 47 :: 43 :: ds := by
    rw [show str (r"https://t.me/+") =
      [104, 116, 116, 112, 115, 58, 47, 47, 116, 46, 109, 101, 47, 43] from by decide]
    rfl
  unfold splitOnS
  rw [if_neg (by decide), hpre,
    show str (r"t.me/") = [116, 46, 109, 101, 47] from by decide,
    show str (r"https://") = [104, 116, 116, 112, 115, 58, 47, 47] from by decide,
    show (104 :: 116 :: 116 :: 112 :: 115 :: 58 :: 47 :: 47 :: 116 :: 46 :: 109 ::
      101 :: 47 :: 43 :: ds).length = ds.length + 14 from by simp]
  have h6 : splitOnGo [116, 46, 109, 101, 47] (ds.length + 6)
      (116 :: 46 :: 109 :: 101 :: 47 :: 43 :: ds) = [[], 43 :: ds] := by
    rw [show ds.length + 6 = ds.length + 5 + 1 from rfl, splitOnGo_step,
      if_pos (by simp [prefOf])]
    rw [show ((116 :: 46 :: 109 :: 101 :: 47 :: 43 :: ds).drop
      ([116, 46, 109, 101, 47] : Str).length) = 43 :: ds from rfl]
    rw [splitOnGo_no_occ _ _ _ hno]
  have h7 : splitOnGo [116, 46, 109, 101, 47] (ds.length + 7)
      (47 :: 116 :: 46 :: 109 :: 101 :: 47 :: 43 :: ds) = [[47], 43 :: ds] := by
    rw [show ds.length + 7 = ds.length + 6 + 1 from rfl, splitOnGo_step,
      if_neg (by simp [prefOf]), h6]
  have h8 : splitOnGo [116, 46, 109, 101, 47] (ds.length + 8)
      (47 :: 47 :: 116 :: 46 :: 109 :: 101 :: 47 :: 43 :: ds) =
      [[47, 47], 43 :: ds] := by
    rw [show ds.length + 8 = ds.length + 7 + 1 from rfl, splitOnGo_step,
      if_neg (by simp [prefOf]), h7]
  have h9 : splitOnGo [116, 46, 109, 101, 47] (ds.length + 9)
      (58 :: 47 :: 47 :: 116 :: 46 :: 109 :: 101 :: 47 :: 43 :: ds) =
      [[58, 47, 47], 43 :: ds] := by
    rw [show ds.length + 9 = ds.length + 8 + 1 from rfl, splitOnGo_step,
      if_neg (by simp [prefOf]), h8]
  have h10 : splitOnGo [116, 46, 109, 101, 47] (ds.length + 10)
      (115 :: 58 :: 47 :: 47 :: 116 :: 46 :: 109 :: 101 :: 47 :: 43 :: ds) =
      [[115, 58, 47, 47], 43 :: ds] := by
    rw [show ds.length + 10 = ds.length + 9 + 1 from rfl, splitOnGo_step,
      if_neg (by simp [prefOf]), h9]
  have h11 : splitOnGo [116, 46, 109, 101, 47] (ds.length + 11)
      (112 :: 115 :: 58 :: 47 :: 47 :: 116 :: 46 :: 109 :: 101 :: 47 :: 43 :: ds) =
      [[112, 115, 58, 47, 47], 43 :: ds] := by
    rw [show ds.length + 11 = ds.length + 10 + 1 from rfl, splitOnGo_step,
      if_neg (by simp [prefOf]), h10]
  have h12 : splitOnGo [116, 46, 109, 101, 47] (ds.length + 12)
      (116 :: 112 :: 115 :: 58 :: 47 :: 47 :: 116 :: 46 :: 109 :: 101 :: 47 ::
        43 :: ds) = [[116, 112, 115, 58, 47, 47], 43 :: ds] := by
    rw [show ds.length + 12 = ds.length + 11 + 1 from rfl, splitOnGo_step,
      if_neg (by simp [prefOf]), h11]
  have h13 : splitOnGo [116, 46, 109, 101, 47] (ds.length + 13)
      (116 :: 116 :: 112 :: 115 :: 58 :: 47 :: 47 :: 116 :: 46 :: 109 :: 101 ::
        47 :: 43 :: ds) = [[116, 116, 112, 115, 58, 47, 47], 43 :: ds] := by
    rw [show ds.length + 13 = ds.length + 12 + 1 from rfl, splitOnGo_step,
      if_neg (by simp [prefOf]), h12]
  rw [show ds.length + 14 = ds.length + 13 + 1 from rfl, splitOnGo_step,
    if_neg (by simp [prefOf]), h13]

/-- C4 counterexample: a t.me URL whose first and only path segment is `+`
followed by 12 digits is ACCEPTED by the validity check and classified as
an invite — the phone-number rejection in the source first requires the
whole segment (including the `+`) to have length at most 12, which caps the
rejected digit count at 11, so the claimed 12-digit case slips through. -/
theorem C4_counterexample :
    is_valid_telegram_link (str (r"https://t.me/+123456789012")) = true ∧
    filter_and_classify_link (str (r"https://t.me/+123456789012")) =
      some ((r"telegram_invite_with_plus"), (r"group")) ∧
    (str (r"123456789012")).length = 12 ∧
    (str (r"123456789012")).all isDigitC = true := by
  decide

/-- Characters of `https://t.me/+<digits>` are digits or one of the ten
code points of the concrete prefix. -/
theorem C4_chars (ds : Str) (hds : ∀ c ∈ ds, isDigitC c = true) :
    ∀ c ∈ str (r"https://t.me/+") ++ ds, isDigitC c = true ∨
      c ∈ ([104, 116, 112, 115, 58, 47, 46, 109, 101, 43] : List Nat) := by
  have hconc : ∀ c ∈ str (r"https://t.me/+"),
      c ∈ ([104, 116, 112, 115, 58, 47, 46, 109, 101, 43] : List Nat) := by decide
  intro c hc
  rcases List.mem_append.mp hc with h | h
  · exact Or.inr (hconc c h)
  · exact Or.inl (hds c h)

/-- C4 amended: for every t.me URL of the form `https://t.me/+` followed by
7 to 11 digits (not 12: the source's guard `len(first_segment) <= 12`
counts the `+`), the validity check rejects the URL, the classification
function returns None, and the per-link save body leaves the store
unchanged. -/
theorem C4_phone_segments_rejected (ds : Str)
    (hds : ∀ c ∈ ds, isDigitC c = true) (hlen7 : 7 ≤ ds.length)
    (hlen11 : ds.length ≤ 11) :
    is_valid_telegram_link (str (r"https://t.me/+") ++ ds) = false ∧
    filter_and_classify_link (str (r"https://t.me/+") ++ ds) = none ∧
    ∀ (now : Int) (msg : Msg) (account_name source_type : String) (db : DB),
      process_link now msg account_name source_type db
        (str (r"https://t.me/+") ++ ds) = db := by
  have hchars := C4_chars ds hds
  have hconcsp : ∀ c ∈ ([104, 116, 112, 115, 58, 47, 46, 109, 101, 43] : List Nat),
      isSpaceC c = false := by decide
  have hnospace : ∀ c ∈ str (r"https://t.me/+") ++ ds, isSpaceC c = false := by
    intro c hc
    rcases hchars c hc with h | h
    · have := of_decide_eq_true h
      unfold isSpaceC
      have h32 : c ≠ 32 := by omega
      have h9 : c ≠ 9 := by omega
      have h10 : c ≠ 10 := by omega
      have h13 : c ≠ 13 := by omega
      have h12 : c ≠ 12 := by omega
      have h11 : c ≠ 11 := by omega
      simp [h32, h9, h10, h13, h12, h11]
    · exact hconcsp c h
  have hlower : lowerS (str (r"https://t.me/+") ++ ds) =
      str (r"https://t.me/+") ++ ds := by
    unfold lowerS
    rw [List.map_append]
    rw [show (str (r"https://t.me/+")).map lowerC = str (r"https://t.me/+")
      from by decide]
    rw [show List.map lowerC ds = lowerS ds from rfl, lowerS_digits ds hds]
  have hstrip : stripS (str (r"https://t.me/+") ++ ds) =
      str (r"https://t.me/+") ++ ds := stripS_eq_self _ hnospace
  have h98 : (98 : Nat) ∉ str (r"https://t.me/+") ++ ds := by
    intro hmem
    rcases hchars 98 hmem with h | h
    · exact absurd (of_decide_eq_true h) (by omega)
    · exact absurd h (by decide)
  have h118 : (118 : Nat) ∉ str (r"https://t.me/+") ++ ds := by
    intro hmem
    rcases hchars 118 hmem with h | h
    · exact absurd (of_decide_eq_true h) (by omega)
    · exact absurd h (by decide)
  have hrej : tg_rejected (str (r"https://t.me/+") ++ ds) = false := by
    unfold tg_rejected
    rw [containsSub_eq_false _ _ 98 (by decide) h98,
      containsSub_eq_false _ _ 98 (by decide) h98,
      containsSub_eq_false _ _ 118 (by decide) h118,
      containsSub_eq_false _ _ 118 (by decide) h118]
    rfl
  have htme5 : containsSub (str (r"t.me/")) (str (r"https://t.me/+") ++ ds) = true :=
    containsSub_append_of_left _ _ ds (by decide)
  have htme4 : containsSub (str (r"t.me")) (str (r"https://t.me/+") ++ ds) = true :=
    containsSub_append_of_left _ _ ds (by decide)
  have hdsne : ds ≠ [] := by
    intro h
    rw [h] at hlen7
    simp at hlen7
  have hq : containsSub (str (r"?")) (43 :: ds) = false := by
    apply containsSub_eq_false _ _ 63 (by decide)
    intro hmem
    rcases List.mem_cons.mp hmem with h | h
    · exact absurd h (by decide)
    · exact absurd (of_decide_eq_true (hds 63 h)) (by omega)
  have hsl : containsSub (str (r"/")) (43 :: ds) = false := by
    apply containsSub_eq_false _ _ 47 (by decide)
    intro hmem
    rcases List.mem_cons.mp hmem with h | h
    · exact absurd h (by decide)
    · exact absurd (of_decide_eq_true (hds 47 h)) (by omega)
  have hphone : isPhoneSeg (43 :: ds) = true := by
    have e1 : decide ((43 :: ds).length ≤ 12) = true := by
      apply decide_eq_true
      simp only [List.length_cons]
      omega
    have e2 : ds.isEmpty = false := by
      rcases ds with - | ⟨c, cs⟩
      · exact absurd rfl hdsne
      · rfl
    have e3 : ds.all isDigitC = true := List.all_eq_true.mpr hds
    have e4 : decide (7 ≤ ds.length) = true := decide_eq_true hlen7
    have e5 : decide (ds.length ≤ 12) = true := decide_eq_true (by omega)
    show (decide ((43 :: ds).length ≤ 12) && (!ds.isEmpty && ds.all isDigitC) &&
      decide (7 ≤ ds.length) && decide (ds.length ≤ 12)) = true
    rw [e1, e2, e3, e4, e5]
    rfl
  have hvalid : is_valid_telegram_link (str (r"https://t.me/+") ++ ds) = false := by
    unfold is_valid_telegram_link
    simp only [hlower, hstrip]
    rw [hrej]
    simp only [Bool.false_eq_true, if_false]
    rw [htme5]
    simp only [Bool.not_true, Bool.false_eq_true, if_false]
    rw [splitOn_tme_of_digits ds hds]
    rw [if_neg (by simp)]
    rw [show ([str (r"https://"), 43 :: ds].getD 1 []) = 43 :: ds from rfl]
    rw [splitOnS_no_occ _ _ (by decide) hq]
    rw [show ([(43 : Nat) :: ds].getD 0 []) = 43 :: ds from rfl]
    rw [splitOnS_no_occ _ _ (by decide) hsl]
    rw [if_neg (by simp)]
    rw [show ([(43 : Nat) :: ds].getD 0 []) = 43 :: ds from rfl]
    rw [hphone]
    rfl
  have hextract : is_valid_link_for_extraction (str (r"https://t.me/+") ++ ds) = true := by
    unfold is_valid_link_for_extraction
    have hne : (str (r"https://t.me/+") ++ ds).isEmpty = false := by
      rw [show str (r"https://t.me/+") ++ ds =
        104 :: (str (r"ttps://t.me/+") ++ ds) from by
          rw [show str (r"https://t.me/+") = 104 :: str (r"ttps://t.me/+")
            from by decide]; rfl]
      rfl
    rw [hne]
    simp only [Bool.false_eq_true, if_false, hlower]
    rw [hrej]
    simp only [Bool.false_eq_true, if_false]
    rw [htme4]
    simp
  have hfilter : filter_and_classify_link (str (r"https://t.me/+") ++ ds) = none := by
    unfold filter_and_classify_link
    rw [hextract]
    simp only [Bool.not_true, Bool.false_eq_true, if_false, hlower]
    rw [htme4]
    simp only [Bool.true_or, if_true]
    rw [hvalid]
    simp
  refine ⟨hvalid, hfilter, ?_⟩
  intro now msg account_name source_type db
  unfold process_link
  rw [hfilter]

/-- C4 witness: the amended theorem applied at the 7-digit segment
`+1234567`. -/
theorem C4_phone_segments_rejected_witness :
    is_valid_telegram_link (str (r"https://t.me/+") ++ str (r"1234567")) = false ∧
    filter_and_classify_link (str (r"https://t.me/+") ++ str (r"1234567")) = none :=
  ⟨(C4_phone_segments_rejected (str (r"1234567")) (by decide) (by decide)
      (by decide)).1,
    (C4_phone_segments_rejected (str (r"1234567")) (by decide) (by decide)
      (by decide)).2.1⟩

/-- Boolean membership agrees with list membership for keys. -/
theorem contains_iff_mem (l : List Str) (a : Str) : l.contains a = true ↔ a ∈ l :=
  List.elem_iff

/-- The `any` test of the insert phase detects exactly key membership. -/
theorem any_key_iff (c : FileCache) (id : Str) :
    c.any (fun e => e.1 == id) = true ↔ id ∈ cacheKeys c := by
  rw [List.any_eq_true]
  constructor
  · rintro ⟨e, he, hpe⟩
    exact (mem_cacheKeys_iff c id).mpr ⟨e, he, by simpa using hpe⟩
  · rintro hmem
    obtain ⟨e, he, hek⟩ := (mem_cacheKeys_iff c id).mp hmem
    exact ⟨e, he, by simp [hek]⟩

/-- With duplicate-free keys, entries are determined by their keys. -/
theorem key_inj (c : FileCache) (hnd : (cacheKeys c).Nodup) :
    ∀ e ∈ c, ∀ e2 ∈ c, e.1 = e2.1 → e = e2 := by
  induction c with
  | nil => intro e he; cases he
  | cons x rest ih =>
    obtain ⟨hx, hrest⟩ : x.1 ∉ cacheKeys rest ∧ (cacheKeys rest).Nodup := by
      simpa [cacheKeys] using hnd
    intro e he e2 he2 hkey
    rcases List.mem_cons.mp he with he | he <;> rcases List.mem_cons.mp he2 with he2 | he2
    · rw [he, he2]
    · have hx1 : x.1 = e2.1 := by rw [← he]; exact hkey
      exact absurd ((mem_cacheKeys_iff rest x.1).mpr ⟨e2, he2, hx1.symm⟩) hx
    · have hx1 : e.1 = x.1 := by rw [hkey, he2]
      exact absurd ((mem_cacheKeys_iff rest x.1).mpr ⟨e, he, hx1⟩) hx
    · exact ih hrest e he e2 he2 hkey

/-- With duplicate-free keys, a cache element's key survives a filter
exactly when the element itself does. -/
theorem mem_keys_filter_iff (c : FileCache) (hnd : (cacheKeys c).Nodup)
    (P : Str × CacheEntry → Bool) (e : Str × CacheEntry) (he : e ∈ c) :
    e.1 ∈ cacheKeys (c.filter P) ↔ P e = true := by
  constructor
  · intro hk
    obtain ⟨e2, he2, hke⟩ := (mem_cacheKeys_iff _ _).mp hk
    have he2c : e2 ∈ c := (List.mem_filter.mp he2).1
    have hpe2 : P e2 = true := (List.mem_filter.mp he2).2
    have : e2 = e := key_inj c hnd e2 he2c e he hke
    rwa [this] at hpe2
  · intro hp
    exact (mem_cacheKeys_iff _ _).mpr ⟨e, List.mem_filter.mpr ⟨he, hp⟩, rfl⟩

instance : IsTotal (Str × CacheEntry) tsLE :=
  ⟨fun a b => Int.le_total a.2.timestamp b.2.timestamp⟩

instance : IsTrans (Str × CacheEntry) tsLE :=
  ⟨fun _ _ _ hab hbc => le_trans hab hbc⟩

/-- The timestamp sort is a permutation of the cache. -/
theorem sortByTs_perm (c : FileCache) : (sortByTs c).Perm c :=
  List.perm_insertionSort tsLE c

/-- The timestamp sort is sorted by timestamp. -/
theorem sortByTs_sorted (c : FileCache) : List.Pairwise tsLE (sortByTs c) :=
  List.sorted_insertionSort tsLE c

/-- Keys of the sorted cache are still duplicate-free. -/
theorem sortByTs_keys_nodup (c : FileCache) (hnd : (cacheKeys c).Nodup) :
    (cacheKeys (sortByTs c)).Nodup :=
  (((sortByTs_perm c).map Prod.fst).nodup_iff).mpr hnd

/-- Splitting the eviction filter along the sorted order: the entries whose
keys avoid the oldest-100 key list are exactly (up to permutation) the
sorted tail, and the entries whose keys are among the oldest-100 keys are
exactly the sorted head. -/
theorem evict_filter_perms (c : FileCache) (hnd : (cacheKeys c).Nodup) :
    (c.filter (fun e => !((cacheKeys ((sortByTs c).take 100)).contains e.1))).Perm
      ((sortByTs c).drop 100) ∧
    (c.filter (fun e => (cacheKeys ((sortByTs c).take 100)).contains e.1)).Perm
      ((sortByTs c).take 100) := by
  have hperm : (sortByTs c).Perm c := sortByTs_perm c
  have hndk : (cacheKeys (sortByTs c)).Nodup := sortByTs_keys_nodup c hnd
  have hkeysplit : (cacheKeys ((sortByTs c).take 100) ++
      cacheKeys ((sortByTs c).drop 100)).Nodup := by
    unfold cacheKeys
    rw [← List.map_append, List.take_append_drop]
    exact hndk
  have hdis := (List.nodup_append.mp hkeysplit).2.2
  have hdrop : ∀ e ∈ (sortByTs c).drop 100,
      e.1 ∉ cacheKeys ((sortByTs c).take 100) := by
    intro e he hke
    exact hdis hke (List.mem_map.mpr ⟨e, he, rfl⟩)
  have htake : ∀ e ∈ (sortByTs c).take 100,
      e.1 ∈ cacheKeys ((sortByTs c).take 100) :=
    fun e he => List.mem_map.mpr ⟨e, he, rfl⟩
  have hsfilter : ∀ (P : Str × CacheEntry → Bool),
      (c.filter P).Perm (((sortByTs c).take 100).filter P ++
        ((sortByTs c).drop 100).filter P) := by
    intro P
    have h1 : (c.filter P).Perm ((sortByTs c).filter P) :=
      List.Perm.filter P hperm.symm
    have h2 : (sortByTs c).filter P =
        ((sortByTs c).take 100).filter P ++ ((sortByTs c).drop 100).filter P := by
      conv_lhs => rw [← List.take_append_drop 100 (sortByTs c)]
      rw [List.filter_append]
    rw [← h2]
    exact h1
  constructor
  · have h3 := hsfilter (fun e => !((cacheKeys ((sortByTs c).take 100)).contains e.1))
    have h4 : ((sortByTs c).take 100).filter
        (fun e => !((cacheKeys ((sortByTs c).take 100)).contains e.1)) = [] := by
      rw [List.filter_eq_nil_iff]
      intro e he
      simp [contains_iff_mem, htake e he]
    have h5 : ((sortByTs c).drop 100).filter
        (fun e => !((cacheKeys ((sortByTs c).take 100)).contains e.1)) =
        (sortByTs c).drop 100 := by
      rw [List.filter_eq_self]
      intro e he
      simp [contains_iff_mem, hdrop e he]
    rw [h4, h5] at h3
    simpa using h3
  · have h3 := hsfilter (fun e => (cacheKeys ((sortByTs c).take 100)).contains e.1)
    have h4 : ((sortByTs c).take 100).filter
        (fun e => (cacheKeys ((sortByTs c).take 100)).contains e.1) =
        (sortByTs c).take 100 := by
      rw [List.filter_eq_self]
      intro e he
      simpa [contains_iff_mem] using htake e he
    have h5 : ((sortByTs c).drop 100).filter
        (fun e => (cacheKeys ((sortByTs c).take 100)).contains e.1) = [] := by
      rw [List.filter_eq_nil_iff]
      intro e he
      simpa [contains_iff_mem] using hdrop e he
    rw [h4, h5] at h3
    simpa using h3

/-- Every entry of the sorted head is no newer than any entry of the
sorted tail. -/
theorem take_le_drop_ts (c : FileCache) :
    ∀ x ∈ (sortByTs c).take 100, ∀ y ∈ (sortByTs c).drop 100,
      x.2.timestamp ≤ y.2.timestamp := by
  have hp := sortByTs_sorted c
  rw [← List.take_append_drop 100 (sortByTs c)] at hp
  exact (List.pairwise_append.mp hp).2.2

/-- Refreshing an existing key rewrites one value but leaves the key list
unchanged. -/
theorem cacheKeys_map_refresh (c : FileCache) (id : Str) (entry : CacheEntry) :
    cacheKeys (c.map (fun e => if e.1 == id then (id, entry) else e)) =
      cacheKeys c := by
  unfold cacheKeys
  rw [List.map_map]
  apply List.map_congr_left
  intro e _
  by_cases hhe : e.1 = id
  · simp [hhe]
  · simp [hhe]

/-- Closed form of a record operation at capacity on a fresh identifier:
evict the 100 oldest-keyed entries, then append the new entry. -/
theorem add_at_capacity_form (cache : FileCache) (id h : Str) (lc : Nat)
    (now : Int) (hcap : MAX_CACHE_SIZE ≤ cache.length)
    (hid : id ∉ cacheKeys cache) :
    add_to_processed_cache cache id h lc now =
      cache.filter (fun e =>
        !((cacheKeys ((sortByTs cache).take 100)).contains e.1)) ++
        [(id, ⟨h, now, lc⟩)] := by
  have hany : (cache.filter (fun e =>
      !((cacheKeys ((sortByTs cache).take 100)).contains e.1))).any
      (fun e => e.1 == id) = false := by
    rw [Bool.eq_false_iff, Ne, any_key_iff]
    intro hmem
    have hsub : (cacheKeys (cache.filter (fun e =>
        !((cacheKeys ((sortByTs cache).take 100)).contains e.1)))).Sublist
        (cacheKeys cache) := (List.filter_sublist cache).map Prod.fst
    exact hid (hsub.subset hmem)
  simp only [add_to_processed_cache]
  rw [if_pos hcap, if_neg (by rw [hany]; simp)]

/-- One record operation keeps the key list duplicate-free and the size
within capacity. -/
theorem add_to_processed_cache_inv (cache : FileCache)
    (hnd : (cacheKeys cache).Nodup) (hle : cache.length ≤ MAX_CACHE_SIZE)
    (id h : Str) (lc : Nat) (now : Int) :
    (cacheKeys (add_to_processed_cache cache id h lc now)).Nodup ∧
    (add_to_processed_cache cache id h lc now).length ≤ MAX_CACHE_SIZE := by
  have hmaxeq : MAX_CACHE_SIZE = 1000 := rfl
  by_cases hcap : MAX_CACHE_SIZE ≤ cache.length
  · have hlen1000 : cache.length = MAX_CACHE_SIZE := le_antisymm hle hcap
    have hc1perm := (evict_filter_perms cache hnd).1
    have hc1len : (cache.filter (fun e =>
        !((cacheKeys ((sortByTs cache).take 100)).contains e.1))).length ≤ 900 := by
      rw [hc1perm.length_eq, List.length_drop, (sortByTs_perm cache).length_eq,
        hlen1000]
      decide
    have hc1nd : (cacheKeys (cache.filter (fun e =>
        !((cacheKeys ((sortByTs cache).take 100)).contains e.1)))).Nodup :=
      List.Nodup.sublist ((List.filter_sublist cache).map Prod.fst) hnd
    simp only [add_to_processed_cache]
    rw [if_pos hcap]
    by_cases hany : (cache.filter (fun e =>
        !((cacheKeys ((sortByTs cache).take 100)).contains e.1))).any
        (fun e => e.1 == id) = true
    · rw [if_pos hany]
      refine ⟨?_, ?_⟩
      · rw [cacheKeys_map_refresh]
        exact hc1nd
      · rw [List.length_map]
        omega
    · rw [if_neg hany]
      have hidnot : id ∉ cacheKeys (cache.filter (fun e =>
          !((cacheKeys ((sortByTs cache).take 100)).contains e.1))) :=
        fun hm => hany ((any_key_iff _ _).mpr hm)
      refine ⟨?_, ?_⟩
      · unfold cacheKeys
        rw [List.map_append]
        refine List.Nodup.append hc1nd (by simp) ?_
        intro a ha hb
        have : a = id := by simpa using hb
        exact hidnot (this ▸ ha)
      · rw [List.length_append]
        simp only [List.length_cons, List.length_nil]
        omega
  · have hlt : cache.length < MAX_CACHE_SIZE := Nat.lt_of_not_le hcap
    simp only [add_to_processed_cache]
    rw [if_neg hcap]
    by_cases hany : cache.any (fun e => e.1 == id) = true
    · rw [if_pos hany]
      refine ⟨?_, ?_⟩
      · rw [cacheKeys_map_refresh]
        exact hnd
      · rw [List.length_map]
        exact hle
    · rw [if_neg hany]
      have hidnot : id ∉ cacheKeys cache := fun hm => hany ((any_key_iff _ _).mpr hm)
      refine ⟨?_, ?_⟩
      · unfold cacheKeys
        rw [List.map_append]
        refine List.Nodup.append hnd (by simp) ?_
        intro a ha hb
        have : a = id := by simpa using hb
        exact hidnot (this ▸ ha)
      · rw [List.length_append]
        simp only [List.length_cons, List.length_nil]
        omega

/-- A sequence of record operations keeps the key list duplicate-free and
the size within capacity. -/
theorem apply_records_inv : ∀ (ops : List RecordOp) (c : FileCache),
    (cacheKeys c).Nodup → c.length ≤ MAX_CACHE_SIZE →
    (cacheKeys (apply_records c ops)).Nodup ∧
    (apply_records c ops).length ≤ MAX_CACHE_SIZE := by
  intro ops
  induction ops with
  | nil => intro c h1 h2; exact ⟨h1, h2⟩
  | cons o rest ih =>
    intro c h1 h2
    have hstep := add_to_processed_cache_inv c h1 h2 o.id o.hash o.links_found o.now
    have hfold : apply_records c (o :: rest) =
        apply_records (add_to_processed_cache c o.id o.hash o.links_found o.now)
          rest := rfl
    rw [hfold]
    exact ih _ hstep.1 hstep.2

/-- C6: starting from an empty cache, no sequence of record operations
pushes the cache above MAX_CACHE_SIZE; and a record operation that finds
the cache exactly at capacity (with duplicate-free keys and a fresh
identifier) evicts exactly MAX_CACHE_SIZE / 10 = 100 entries — precisely
ones whose last-seen timestamps are no newer than every surviving old
entry's — before inserting the new entry. -/
theorem C6_cache_capacity_and_eviction :
    (∀ ops : List RecordOp, (apply_records [] ops).length ≤ MAX_CACHE_SIZE) ∧
    (∀ (cache : FileCache) (id h : Str) (lc : Nat) (now : Int),
      cache.length = MAX_CACHE_SIZE → (cacheKeys cache).Nodup →
      id ∉ cacheKeys cache →
      (add_to_processed_cache cache id h lc now).length =
        MAX_CACHE_SIZE - MAX_CACHE_SIZE / 10 + 1 ∧
      id ∈ cacheKeys (add_to_processed_cache cache id h lc now) ∧
      (cache.filter (fun e =>
          !((cacheKeys (add_to_processed_cache cache id h lc now)).contains
            e.1))).length = MAX_CACHE_SIZE / 10 ∧
      ∀ e ∈ cache.filter (fun e =>
          !((cacheKeys (add_to_processed_cache cache id h lc now)).contains e.1)),
        ∀ e2 ∈ cache,
          e2.1 ∈ cacheKeys (add_to_processed_cache cache id h lc now) →
          e.2.timestamp ≤ e2.2.timestamp) := by
  constructor
  · intro ops
    exact (apply_records_inv ops [] (by simp [cacheKeys]) (by simp)).2
  · intro cache id h lc now hlen hnd hid
    have hcap : MAX_CACHE_SIZE ≤ cache.length := le_of_eq hlen.symm
    have hform := add_at_capacity_form cache id h lc now hcap hid
    have hperm1 := (evict_filter_perms cache hnd).1
    have hperm2 := (evict_filter_perms cache hnd).2
    have hslen : (sortByTs cache).length = MAX_CACHE_SIZE := by
      rw [(sortByTs_perm cache).length_eq, hlen]
    have hdroplen : ((sortByTs cache).drop 100).length = 900 := by
      rw [List.length_drop, hslen]
      decide
    have htakelen : ((sortByTs cache).take 100).length = 100 := by
      rw [List.length_take, hslen]
      decide
    have hc1len : (cache.filter (fun e =>
        !((cacheKeys ((sortByTs cache).take 100)).contains e.1))).length = 900 := by
      rw [hperm1.length_eq, hdroplen]
    have hkeysresult : cacheKeys (add_to_processed_cache cache id h lc now) =
        cacheKeys (cache.filter (fun e =>
          !((cacheKeys ((sortByTs cache).take 100)).contains e.1))) ++ [id] := by
      rw [hform]
      unfold cacheKeys
      rw [List.map_append]
      rfl
    refine ⟨?_, ?_, ?_, ?_⟩
    · rw [hform, List.length_append, hc1len]
      simp only [List.length_cons, List.length_nil]
      decide
    · rw [hkeysresult, List.mem_append]
      exact Or.inr (by simp)
    · have hcongr : cache.filter (fun e =>
          !((cacheKeys (add_to_processed_cache cache id h lc now)).contains e.1)) =
          cache.filter (fun e =>
            (cacheKeys ((sortByTs cache).take 100)).contains e.1) := by
        apply List.filter_congr
        intro e he
        have hne : e.1 ≠ id := fun hq => hid (hq ▸ (List.mem_map.mpr ⟨e, he, rfl⟩))
        have hiff : e.1 ∈ cacheKeys (add_to_processed_cache cache id h lc now) ↔
            (!(cacheKeys ((sortByTs cache).take 100)).contains e.1) = true := by
          rw [hkeysresult, List.mem_append]
          constructor
          · rintro (hm | hm)
            · exact (mem_keys_filter_iff cache hnd _ e he).mp hm
            · exact absurd (by simpa using hm) hne
          · intro hp
            exact Or.inl ((mem_keys_filter_iff cache hnd _ e he).mpr hp)
        by_cases hob : (cacheKeys ((sortByTs cache).take 100)).contains e.1 = true
        · have hnm : e.1 ∉ cacheKeys (add_to_processed_cache cache id h lc now) :=
            fun hm => by
              have hx := hiff.mp hm
              rw [hob] at hx
              simp at hx
          have hcf : (cacheKeys (add_to_processed_cache cache id h lc now)).contains
              e.1 = false := by
            rw [Bool.eq_false_iff, Ne, contains_iff_mem]
            exact hnm
          rw [hcf, hob]
          rfl
        · have hobf : (cacheKeys ((sortByTs cache).take 100)).contains e.1 = false :=
            Bool.eq_false_iff.mpr hob
          have hmem : e.1 ∈ cacheKeys (add_to_processed_cache cache id h lc now) :=
            hiff.mpr (by rw [hobf]; rfl)
          have hct : (cacheKeys (add_to_processed_cache cache id h lc now)).contains
              e.1 = true := (contains_iff_mem _ _).mpr hmem
          rw [hct, hobf]
          rfl
      rw [hcongr, hperm2.length_eq, htakelen]
      decide
    · intro e hef e2 he2 hk2
      have hcongr : cache.filter (fun e =>
          !((cacheKeys (add_to_processed_cache cache id h lc now)).contains e.1)) =
          cache.filter (fun e =>
            (cacheKeys ((sortByTs cache).take 100)).contains e.1) := by
        apply List.filter_congr
        intro e he
        have hne : e.1 ≠ id := fun hq => hid (hq ▸ (List.mem_map.mpr ⟨e, he, rfl⟩))
        have hiff : e.1 ∈ cacheKeys (add_to_processed_cache cache id h lc now) ↔
            (!(cacheKeys ((sortByTs cache).take 100)).contains e.1) = true := by
          rw [hkeysresult, List.mem_append]
          constructor
          · rintro (hm | hm)
            · exact (mem_keys_filter_iff cache hnd _ e he).mp hm
            · exact absurd (by simpa using hm) hne
          · intro hp
            exact Or.inl ((mem_keys_filter_iff cache hnd _ e he).mpr hp)
        by_cases hob : (cacheKeys ((sortByTs cache).take 100)).contains e.1 = true
        · have hnm : e.1 ∉ cacheKeys (add_to_processed_cache cache id h lc now) :=
            fun hm => by
              have hx := hiff.mp hm
              rw [hob] at hx
              simp at hx
          have hcf : (cacheKeys (add_to_processed_cache cache id h lc now)).contains
              e.1 = false := by
            rw [Bool.eq_false_iff, Ne, contains_iff_mem]
            exact hnm
          rw [hcf, hob]
          rfl
        · have hobf : (cacheKeys ((sortByTs cache).take 100)).contains e.1 = false :=
            Bool.eq_false_iff.mpr hob
          have hmem : e.1 ∈ cacheKeys (add_to_processed_cache cache id h lc now) :=
            hiff.mpr (by rw [hobf]; rfl)
          have hct : (cacheKeys (add_to_processed_cache cache id h lc now)).contains
              e.1 = true := (contains_iff_mem _ _).mpr hmem
          rw [hct, hobf]
          rfl
      rw [hcongr] at hef
      have hetake : e ∈ (sortByTs cache).take 100 := hperm2.mem_iff.mp hef
      have hp2 : (!(cacheKeys ((sortByTs cache).take 100)).contains e2.1) = true := by
        rw [hkeysresult, List.mem_append] at hk2
        rcases hk2 with hm | hm
        · exact (mem_keys_filter_iff cache hnd _ e2 he2).mp hm
        · have hq : e2.1 = id := by simpa using hm
          have hmem2 : e2.1 ∈ cacheKeys cache := List.mem_map.mpr ⟨e2, he2, rfl⟩
          rw [hq] at hmem2
          exact absurd hmem2 hid
      have he2drop : e2 ∈ (sortByTs cache).drop 100 :=
        hperm1.mem_iff.mp (List.mem_filter.mpr ⟨he2, hp2⟩)
      exact take_le_drop_ts cache e hetake e2 he2drop

/-- C6 witness: the theorem applied to a concrete full cache of 1000
distinct identifiers and a fresh 1001st identifier. -/
theorem C6_cache_capacity_and_eviction_witness :
    (add_to_processed_cache C6_big_cache [1000] [] 0 1).length =
      MAX_CACHE_SIZE - MAX_CACHE_SIZE / 10 + 1 ∧
    [1000] ∈ cacheKeys (add_to_processed_cache C6_big_cache [1000] [] 0 1) := by
  have hkeys : cacheKeys C6_big_cache = (List.range 1000).map (fun i => [i]) := by
    unfold cacheKeys C6_big_cache
    rw [List.map_map]
    rfl
  have h1 : C6_big_cache.length = MAX_CACHE_SIZE := by
    unfold C6_big_cache
    rw [List.length_map, List.length_range]
    rfl
  have h2 : (cacheKeys C6_big_cache).Nodup := by
    rw [hkeys]
    exact (List.nodup_range 1000).map (fun a b hab => by simpa using hab)
  have h3 : ([1000] : Str) ∉ cacheKeys C6_big_cache := by
    rw [hkeys]
    intro hm
    obtain ⟨i, hi, hie⟩ := List.mem_map.mp hm
    rw [List.mem_range] at hi
    have : i = 1000 := by simpa using hie
    omega
  have hmain := C6_cache_capacity_and_eviction.2 C6_big_cache [1000] [] 0 1 h1 h2 h3
  exact ⟨hmain.1, hmain.2.1⟩
